import Mathlib

/-!
Robust vertex normal estimation of insight3d.

A shallow embedding of `src/insight3d/tool_triangulation.cpp`
(`tool_triangulate_clear`, `compute_vertex_normal_from_pointcloud`,
`tool_triangulate_compute_normals`) and the properties of the point cloud
store they maintain.

Conventions of the embedding.

* `double` is an arbitrary linearly ordered field `α`; the square root used by
  the normalisation is an explicit parameter `sqrt : α → α`, so every
  definition is computable (`α := ℚ`, `sqrt := Rat.sqrt`) and the theorems
  about unit length are stated for `α := ℝ`, `sqrt := Real.sqrt`.
* The global dynamic arrays `vertices`, `shots`, `vertices_incidence` are the
  fields of an explicit `Store` that every operation receives and returns.
* A read through an index that is outside the initialised part of an array,
  or through a pointer whose block has been released, is undefined behaviour
  in the source; the embedding returns `none` there.
* The two external collaborators, the ANN k-nearest-neighbour search and the
  RANSAC plane fitter `tool_plane_extraction_subset`, are parameters.
-/

namespace Insight3d

/-! ## Data model -/

/-- The `Vertex` entity: position, reconstruction flag and normal. -/
structure Vertex (α : Type) where
  x : α
  y : α
  z : α
  reconstructed : Bool
  nx : α
  ny : α
  nz : α
  deriving DecidableEq

/-- The `Shot` entity: pixel size, calibration flag and the precomputed
reference vector `T` (`T[0]`, `T[1]`, `T[2]`). -/
structure Shot (α : Type) where
  width : α
  height : α
  calibrated : Bool
  T : α × α × α
  deriving DecidableEq

/-- The pair `(primary, secondary)` = `(shot id, point id)`. -/
structure Double_Index where
  primary : Nat
  secondary : Nat
  deriving DecidableEq

/-- The observations fused into one vertex, in stored order. -/
structure Vertex_Incidence where
  shot_point_ids : List Double_Index
  deriving DecidableEq

/-- The process-wide arrays the triangulation tool works on. -/
structure Store (α : Type) where
  vertices : List (Vertex α)
  shots : List (Shot α)
  vertices_incidence : List Vertex_Incidence
  deriving DecidableEq

/-- The four coefficients `plane[X]`, `plane[Y]`, `plane[Z]`, `plane[3]` of
`a*x + b*y + c*z = d`. -/
structure Plane (α : Type) where
  a : α
  b : α
  c : α
  d : α
  deriving DecidableEq

/-- The constant `compute_normals_K`. -/
def compute_normals_K : Nat := 200

/-- The kd-tree `new ANNkd_tree(ann_points, count, 3)`: the point array it was
built over (slot `j` is `none` when it was never written) and the number of
points. -/
structure ANNkd_tree (α : Type) where
  pa : Nat → Option (α × α × α)
  n_pts : Nat

/-- The k-nearest-neighbour search `annkSearch(q, k, ann_ids, ann_ds, 0.05)`,
an external library: from the tree, the query point and `k` it gives the
content of `ann_ids[i]` after the call (`ANNidx` is a signed integer; ANN
writes `ANN_NULL_IDX = -1` into a slot it cannot fill). -/
abbrev Search (α : Type) := ANNkd_tree α → α × α × α → Nat → Nat → Int

/-- The plane fitter `tool_plane_extraction_subset(vertices, ids, count)`,
an external collaborator: a plane, or `none` for the `NULL` it returns on
failure. -/
abbrev Fitter (α : Type) := List (Vertex α) → List Nat → Nat → Option (Plane α)

/-! ## Helpers of the repository that are not part of the two source files -/

/-- Modelled from the spec: `dot_3(a, b)`, the dot product of the first three
components (`signed = dot(plane_normal, shot.T) − d`). -/
def dot_3 {α : Type} [LinearOrderedField α] (plane : Plane α) (T : α × α × α) : α :=
  plane.a * T.1 + plane.b * T.2.1 + plane.c * T.2.2

/-- Modelled from the spec: `normalize_vector(plane, 3)` divides the first
three coefficients by their Euclidean norm ("normalize the plane's normal
direction to unit length") and leaves `plane[3]` as it is. -/
def normalize_vector {α : Type} [LinearOrderedField α] (sqrt : α → α) (plane : Plane α) :
    Plane α :=
  let norm := sqrt (plane.a * plane.a + plane.b * plane.b + plane.c * plane.c)
  { a := plane.a / norm, b := plane.b / norm, c := plane.c / norm, d := plane.d }

/-- Modelled from the spec: the macro `ALL(array, i)`, which is not part of the
two source files, lets `i` run over every index `0 .. count - 1` of the array
in ascending order ("iterates all reconstructed vertices", "resets all
vertices"). -/
def ALL (count : Nat) : List Nat := List.range count

/-- Modelled from the spec: the macro `FREE(p)`, which is not part of the two
source files, releases the block `p` points to ("manual resource lifetimes");
nothing can be read through `p` afterwards, so the block is `none`. -/
def FREE {β : Type} (_block : Option β) : Option β := none

/-! ## `tool_triangulate_clear` -/

/-- The body of the loop of `tool_triangulate_clear` for one vertex. -/
def clear_vertex {α : Type} [LinearOrderedField α] (vertex : Vertex α) : Vertex α :=
  { vertex with reconstructed := false, x := 0, y := 0, z := 0 }

/-- Modelled from the spec: `visualization_process_data(vertices, shots)`, which
is not part of the two source files, belongs to rendering and leaves the store
as it is (the clear command is "the only other mutator of the Vertex entity
besides the triangulator and this subsystem"). -/
def visualization_process_data {α : Type} (s : Store α) : Store α := s

/-- The function `triangulate_refresh_ui`: refresh the UI after triangulation. -/
def triangulate_refresh_ui {α : Type} (s : Store α) : Store α :=
  visualization_process_data s

/-- The function `tool_triangulate_clear`: forgets the position of all
vertices (the loop over `ALL(vertices, i)` resets every vertex), then
refreshes the UI. -/
def tool_triangulate_clear {α : Type} [LinearOrderedField α] (s : Store α) : Store α :=
  triangulate_refresh_ui { s with vertices := s.vertices.map clear_vertex }

/-! ## The compaction loop of `tool_triangulate_compute_normals` -/

/-- The locals `vertices_refactor`, `ann_points`, `count` of
`tool_triangulate_compute_normals`; a slot that was never written is `none`. -/
structure Compact (α : Type) where
  vertices_refactor : Nat → Option Nat
  ann_points : Nat → Option (α × α × α)
  count : Nat

/-- The state before the first loop: nothing written, `count = 0`. -/
def Compact.init (α : Type) : Compact α :=
  { vertices_refactor := fun _ => none, ann_points := fun _ => none, count := 0 }

/-- The first loop of `tool_triangulate_compute_normals` over
`ALL(vertices, i)`, from index `i` on: a vertex that is not reconstructed is
skipped (`continue`), a reconstructed one is written to slot `count` of both
arrays and `count` is incremented. -/
def compact_loop {α : Type} : List (Vertex α) → Nat → Compact α → Compact α
  | [], _, c => c
  | vertex :: rest, i, c =>
    if !vertex.reconstructed then compact_loop rest (i + 1) c
    else
      compact_loop rest (i + 1)
        { vertices_refactor := fun j => if j = c.count then some i else c.vertices_refactor j
          ann_points := fun j =>
            if j = c.count then some (vertex.x, vertex.y, vertex.z) else c.ann_points j
          count := c.count + 1 }

/-- The arrays and the count after the first loop. -/
def compaction {α : Type} (vertices : List (Vertex α)) : Compact α :=
  compact_loop vertices 0 (Compact.init α)

/-! ## `compute_vertex_normal_from_pointcloud` -/

/-- The read `vertices_reindex[ann_ids[i]]`: defined only for an index inside
the written part of the reverse map. -/
def reindex_lookup (vertices_reindex : Nat → Option Nat) (idx : Int) : Option Nat :=
  if 0 ≤ idx then vertices_reindex idx.toNat else none

/-- The loop `for (i = 0; i < compute_normals_K; i++)
nearest_ids[i] = vertices_reindex[ann_ids[i]]` over the slots `is`. -/
def nearest_loop (vertices_reindex : Nat → Option Nat) (ann_ids : Nat → Int) :
    List Nat → Option (List Nat)
  | [] => some []
  | i :: is =>
    match reindex_lookup vertices_reindex (ann_ids i) with
    | none => none
    | some id =>
      match nearest_loop vertices_reindex ann_ids is with
      | none => none
      | some ids => some (id :: ids)

/-- The candidate list `nearest_ids` handed to the plane fitter for a query
point: the search is asked for `compute_normals_K` neighbours and all
`compute_normals_K` slots of `ann_ids` are mapped back. -/
def nearest_ids {α : Type} (annkSearch : Search α) (ann_kdtree : ANNkd_tree α)
    (vertices_reindex : Nat → Option Nat) (ann_point : α × α × α) : Option (List Nat) :=
  nearest_loop vertices_reindex (annkSearch ann_kdtree ann_point compute_normals_K)
    (List.range compute_normals_K)

/-- The orientation loop over `incidence->shot_point_ids`, with the block
`plane` points to (`none` once it has been released): an entry whose shot is
not calibrated is skipped (`continue`); the first calibrated one reads the
block for `invert = dot_3(plane, shot->T) > plane[3]`, the normal is
multiplied by `-1` when `invert` holds, and the loop is left (`break`). -/
def orient_loop {α : Type} [LinearOrderedField α] (shots : List (Shot α))
    (plane : Option (Plane α)) (vertex : Vertex α) : List Double_Index → Option (Vertex α)
  | [] => some vertex
  | id :: rest =>
    match shots[id.primary]? with
    | none => none
    | some shot =>
      if !shot.calibrated then orient_loop shots plane vertex rest
      else
        match plane with
        | none => none
        | some plane =>
          let invert : Bool := decide (dot_3 plane shot.T > plane.d)
          if invert then
            some { vertex with nx := vertex.nx * -1, ny := vertex.ny * -1, nz := vertex.nz * -1 }
          else some vertex

/-- The function `compute_vertex_normal_from_pointcloud(vertex_id, ann_kdtree,
vertices_reindex)`.  The count handed to the fitter is
`nearest_count = compute_normals_K`; the normalised plane is written into the
vertex, `FREE(plane)` releases it, and the orientation loop that follows still
reads through `plane`.  The distances `nearest_d` are filled and freed without
being read, so they are left out. -/
def compute_vertex_normal_from_pointcloud {α : Type} [LinearOrderedField α] (sqrt : α → α)
    (annkSearch : Search α) (tool_plane_extraction_subset : Fitter α) (s : Store α)
    (vertex_id : Nat) (ann_kdtree : ANNkd_tree α) (vertices_reindex : Nat → Option Nat) :
    Option (Store α) :=
  match s.vertices[vertex_id]? with
  | none => none
  | some vertex =>
    match nearest_ids annkSearch ann_kdtree vertices_reindex (vertex.x, vertex.y, vertex.z) with
    | none => none
    | some ids =>
      match tool_plane_extraction_subset s.vertices ids compute_normals_K with
      | none => some s
      | some fitted =>
        let normalized := normalize_vector sqrt fitted
        let vertex :=
          { vertex with nx := normalized.a, ny := normalized.b, nz := normalized.c }
        let plane := FREE (some normalized)
        match s.vertices_incidence[vertex_id]? with
        | none => none
        | some incidence =>
          match orient_loop s.shots plane vertex incidence.shot_point_ids with
          | none => none
          | some vertex => some { s with vertices := s.vertices.set vertex_id vertex }

/-! ## `tool_triangulate_compute_normals` -/

/-- The body of the second loop for index `i`: a reconstructed vertex is
handed to `compute_vertex_normal_from_pointcloud`, any other is left alone. -/
def normals_step {α : Type} [LinearOrderedField α] (sqrt : α → α) (annkSearch : Search α)
    (fit : Fitter α) (ann_kdtree : ANNkd_tree α) (vertices_refactor : Nat → Option Nat)
    (s : Store α) (i : Nat) : Option (Store α) :=
  match s.vertices[i]? with
  | none => none
  | some vertex =>
    if vertex.reconstructed then
      compute_vertex_normal_from_pointcloud sqrt annkSearch fit s i ann_kdtree vertices_refactor
    else some s

/-- The second loop, over the indices `is` in order; it stops at the first
undefined read. -/
def normals_loop {α : Type} [LinearOrderedField α] (sqrt : α → α) (annkSearch : Search α)
    (fit : Fitter α) (ann_kdtree : ANNkd_tree α) (vertices_refactor : Nat → Option Nat) :
    List Nat → Store α → Option (Store α)
  | [], s => some s
  | i :: is, s =>
    match normals_step sqrt annkSearch fit ann_kdtree vertices_refactor s i with
    | none => none
    | some s' => normals_loop sqrt annkSearch fit ann_kdtree vertices_refactor is s'

/-- The function `tool_triangulate_compute_normals`: compaction, kd-tree
construction, then one call per reconstructed vertex over `ALL(vertices, i)`.
The progress dots it prints are not part of the store. -/
def tool_triangulate_compute_normals {α : Type} [LinearOrderedField α] (sqrt : α → α)
    (annkSearch : Search α) (fit : Fitter α) (s : Store α) : Option (Store α) :=
  let c := compaction s.vertices
  let ann_kdtree : ANNkd_tree α := { pa := c.ann_points, n_pts := c.count }
  normals_loop sqrt annkSearch fit ann_kdtree c.vertices_refactor
    (ALL s.vertices.length) s

/-! ## Vocabulary of the statements -/

/-- The sign of the orientation rule as the specification words it: `-1` when
`signed = dot(plane_normal, shot.T) − d` is positive, `+1` otherwise. -/
def spec_sign {α : Type} [LinearOrderedField α] (n : Plane α) (T : α × α × α) : α :=
  if dot_3 n T - n.d > 0 then -1 else 1

/-- The vertex `vertex` with its normal replaced by `(nx, ny, nz)`. -/
def with_normal {α : Type} (vertex : Vertex α) (nx ny nz : α) : Vertex α :=
  { vertex with nx := nx, ny := ny, nz := nz }

/-- The store `s` with the vertex at `vertex_id` replaced. -/
def with_vertex {α : Type} (s : Store α) (vertex_id : Nat) (vertex : Vertex α) : Store α :=
  { s with vertices := s.vertices.set vertex_id vertex }

/-- Every entry of the list names an existing shot that is not calibrated. -/
def all_uncalibrated {α : Type} (shots : List (Shot α)) (ids : List Double_Index) : Prop :=
  ∀ id ∈ ids, ∃ shot, shots[id.primary]? = some shot ∧ shot.calibrated = false

/-- Two vertices agree on position and reconstruction flag. -/
def same_geometry {α : Type} (v w : Vertex α) : Prop :=
  w.x = v.x ∧ w.y = v.y ∧ w.z = v.z ∧ w.reconstructed = v.reconstructed

/-- The frame of a batch run from `s` to `t`: shots and incidence records are
the same, and every vertex keeps position and flag, and keeps its normal too
when it is not reconstructed. -/
def Frame {α : Type} (s t : Store α) : Prop :=
  t.shots = s.shots ∧ t.vertices_incidence = s.vertices_incidence ∧
  t.vertices.length = s.vertices.length ∧
  ∀ (i : Nat) (v : Vertex α), s.vertices[i]? = some v →
    ∃ w, t.vertices[i]? = some w ∧ same_geometry v w ∧ (v.reconstructed = false → w = v)

/-! ## What the compaction loop guarantees -/

/-- What the compaction loop guarantees when it runs over `vs` from index `i`
and state `c` and ends in `c'`. -/
def CompactSpec {α : Type} (vs : List (Vertex α)) (i : Nat) (c c' : Compact α) : Prop :=
  c'.count = c.count + vs.countP (fun v => v.reconstructed) ∧
  (∀ j, j < c.count →
    c'.vertices_refactor j = c.vertices_refactor j ∧ c'.ann_points j = c.ann_points j) ∧
  (∀ j, c'.count ≤ j →
    c'.vertices_refactor j = c.vertices_refactor j ∧ c'.ann_points j = c.ann_points j) ∧
  (∀ j, c.count ≤ j → j < c'.count →
    ∃ (k : Nat) (v : Vertex α), vs[k]? = some v ∧ v.reconstructed = true ∧
      c'.vertices_refactor j = some (i + k) ∧ c'.ann_points j = some (v.x, v.y, v.z)) ∧
  (∀ j₁ j₂ a b, c.count ≤ j₁ → j₁ < j₂ → j₂ < c'.count →
    c'.vertices_refactor j₁ = some a → c'.vertices_refactor j₂ = some b → a < b) ∧
  (∀ (k : Nat) (v : Vertex α), vs[k]? = some v → v.reconstructed = true →
    ∃ j, c.count ≤ j ∧ j < c'.count ∧ c'.vertices_refactor j = some (i + k))

/-! ## The batch as one independent computation per vertex: definitions -/

/-- Position and reconstruction flag of a vertex: what a plane fit over 3-D
points can depend on. -/
def geometry {α : Type} (v : Vertex α) : α × α × α × Bool :=
  (v.x, v.y, v.z, v.reconstructed)

/-- The plane fitter looks at positions and flags only, never at normals. -/
def reads_geometry_only {α : Type} (fit : Fitter α) : Prop :=
  ∀ (vs vs' : List (Vertex α)) (ids : List Nat) (n : Nat),
    vs.map geometry = vs'.map geometry → fit vs ids n = fit vs' ids n

/-- The vertex that the second loop leaves at index `i`, computed from the
store `s` the batch started from. -/
def processed {α : Type} [LinearOrderedField α] (sqrt : α → α) (annkSearch : Search α)
    (fit : Fitter α) (s : Store α) (tree : ANNkd_tree α) (reindex : Nat → Option Nat)
    (i : Nat) (v : Vertex α) : Option (Vertex α) :=
  if v.reconstructed then
    match nearest_ids annkSearch tree reindex (v.x, v.y, v.z) with
    | none => none
    | some ids =>
      match fit s.vertices ids compute_normals_K with
      | none => some v
      | some fitted =>
        match s.vertices_incidence[i]? with
        | none => none
        | some incidence =>
          orient_loop s.shots (FREE (some (normalize_vector sqrt fitted)))
            (with_normal v (normalize_vector sqrt fitted).a (normalize_vector sqrt fitted).b
              (normalize_vector sqrt fitted).c) incidence.shot_point_ids
  else some v

/-- The function `f` applied to every vertex of a list, indices counted from
`i`; `none` as soon as one application is. -/
def process_all {α : Type} (f : Nat → Vertex α → Option (Vertex α)) :
    Nat → List (Vertex α) → Option (List (Vertex α))
  | _, [] => some []
  | i, v :: vs =>
    match f i v with
    | none => none
    | some w =>
      match process_all f (i + 1) vs with
      | none => none
      | some ws => some (w :: ws)

/-! ## Stores on which every read of the batch is defined -/

/-- A store on which every read of the batch is defined, whatever the fitter
answers: for every reconstructed vertex the search answers an index of the
compact array in each of its `compute_normals_K` slots, every vertex has an
incidence record, and every incidence entry names an existing shot that is not
calibrated (so that the released plane is never read). -/
def reads_defined {α : Type} (annkSearch : Search α) (s : Store α) : Prop :=
  (∀ (u : Nat) (vu : Vertex α), s.vertices[u]? = some vu → vu.reconstructed = true →
    ∃ ids, nearest_ids annkSearch
      { pa := (compaction s.vertices).ann_points, n_pts := (compaction s.vertices).count }
      (compaction s.vertices).vertices_refactor (vu.x, vu.y, vu.z) = some ids) ∧
  s.vertices_incidence.length = s.vertices.length ∧
  ∀ inc ∈ s.vertices_incidence, all_uncalibrated s.shots inc.shot_point_ids

/-! ## Unit length of a normal -/

/-- The normal of `w` has Euclidean length `1`. -/
def unit_normal (w : Vertex ℝ) : Prop := w.nx ^ 2 + w.ny ^ 2 + w.nz ^ 2 = 1

/-- From `s` to `t` every vertex keeps its normal or ends with a unit one. -/
def kept_or_unit (s t : Store ℝ) : Prop :=
  t.vertices.length = s.vertices.length ∧
  ∀ (i : Nat) (v : Vertex ℝ), s.vertices[i]? = some v →
    ∃ w, t.vertices[i]? = some w ∧
      ((w.nx = v.nx ∧ w.ny = v.ny ∧ w.nz = v.nz) ∨ unit_normal w)

/-! ## Concrete stores and collaborators used in the examples -/

/-- A search that answers compact index `0` in every slot. -/
def search_first (α : Type) : Search α := fun _ _ _ _ => 0

/-- A search over a single point as ANN fills `ann_ids`: slot `0` holds the
only point, every further slot holds `ANN_NULL_IDX = -1`. -/
def search_null (α : Type) : Search α := fun _ _ _ i => if i = 0 then 0 else -1

/-- A fitter that returns the same plane on every call. -/
def fit_const {α : Type} (plane : Plane α) : Fitter α := fun _ _ _ => some plane

/-- Scenario C of the specification: a single reconstructed vertex, seen by
one shot that is not calibrated. -/
def store_single : Store ℚ :=
  { vertices := [{ x := 0, y := 0, z := 0, reconstructed := true, nx := 0, ny := 0, nz := 0 }]
    shots := [{ width := 640, height := 480, calibrated := false, T := (0, 0, 1) }]
    vertices_incidence := [{ shot_point_ids := [{ primary := 0, secondary := 0 }] }] }

/-- The store `store_single` with the normal `(0, 0, 1)` written. -/
def store_single_after : Store ℚ :=
  { store_single with
    vertices :=
      [{ x := 0, y := 0, z := 0, reconstructed := true, nx := 0, ny := 0, nz := 1 }] }

/-- A fitter that fits `z = 0` only when it is handed the count `200` and a
list of `200` copies of vertex `0`, and fails on every other call (on the
list `[0]` with count `1` in particular). -/
def fit_padded : Fitter ℚ :=
  fun _ ids n =>
    if n = 200 ∧ ids = List.replicate 200 0 then some { a := 0, b := 0, c := 1, d := 0 }
    else none

/-- The first vertex of the cloud: the origin, with the normal `(3, 4, 5)`. -/
def cloud_origin (α : Type) [LinearOrderedField α] : Vertex α :=
  { x := 0, y := 0, z := 0, reconstructed := true, nx := 3, ny := 4, nz := 5 }

/-- The vertex `i + 1` of the cloud: the point `(1, i, 0)`, with no normal yet. -/
def cloud_vertex (α : Type) [LinearOrderedField α] (i : Nat) : Vertex α :=
  { x := 1, y := (i : α), z := 0, reconstructed := true, nx := 0, ny := 0, nz := 0 }

/-- A cloud of `compute_normals_K = 200` reconstructed vertices on the plane
`z = 0`, every one with the incidence list `observers` into `shots`. -/
def store_cloud (α : Type) [LinearOrderedField α] (shots : List (Shot α))
    (observers : List Double_Index) : Store α :=
  { vertices := cloud_origin α :: (List.range 199).map (cloud_vertex α)
    shots := shots
    vertices_incidence := List.replicate 200 { shot_point_ids := observers } }

/-- A search over the 200 points of the cloud that answers all of them: in
ascending order of index for a query point with `x = 0` (the origin), in
descending order for any other. -/
def search_cloud (α : Type) [LinearOrderedField α] : Search α :=
  fun _ q _ i => if q.1 = 0 then (i : Int) else 199 - (i : Int)

/-- A shot that is not calibrated. -/
def shot_off (α : Type) [LinearOrderedField α] : Shot α :=
  { width := 640, height := 480, calibrated := false, T := (0, 0, -5) }

/-- A calibrated shot with `T = (0, 0, 1)`, above the plane `z = 0`. -/
def shot_above (α : Type) [LinearOrderedField α] : Shot α :=
  { width := 640, height := 480, calibrated := true, T := (0, 0, 1) }

/-- A calibrated shot with `T = (0, 0, -1)`, below the plane `z = 0`. -/
def shot_below (α : Type) [LinearOrderedField α] : Shot α :=
  { width := 640, height := 480, calibrated := true, T := (0, 0, -1) }

/-- The cloud seen only by a shot that is not calibrated: every read of a
batch over it is defined. -/
def cloud_unobserved (α : Type) [LinearOrderedField α] : Store α :=
  store_cloud α [shot_off α] [{ primary := 0, secondary := 0 }]

/-- The cloud whose incidence lists name, in this order, the uncalibrated
shot, the calibrated shot above and the calibrated shot below. -/
def cloud_views (α : Type) [LinearOrderedField α] : Store α :=
  store_cloud α [shot_off α, shot_above α, shot_below α]
    [{ primary := 0, secondary := 0 }, { primary := 1, secondary := 0 },
      { primary := 2, secondary := 0 }]

/-- Scenario A of the specification on the cloud: the plane `z = 0` seen by
one calibrated shot with `T = (0, 0, 1)`. -/
def cloud_scenario_A (α : Type) [LinearOrderedField α] : Store α :=
  store_cloud α [shot_above α] [{ primary := 0, secondary := 0 }]

/-- A fitter that reads positions and flags only: it fails on the candidate
list of the origin and fits `2 z = 0` on every other. -/
def fit_far (α : Type) [LinearOrderedField α] : Fitter α :=
  fun _ ids _ => if ids = List.range 200 then none else some { a := 0, b := 0, c := 2, d := 0 }

/-- A deterministic fitter that looks at the normal of vertex `0`: it fits
`z = 0` while that normal has `nz = 5` and `x = 0` otherwise. -/
def fit_by_normal (α : Type) [LinearOrderedField α] : Fitter α :=
  fun vs _ _ =>
    match vs[0]? with
    | none => none
    | some v =>
      if v.nz = 5 then some { a := 0, b := 0, c := 1, d := 0 }
      else some { a := 1, b := 0, c := 0, d := 0 }

theorem orient_loop_uncalibrated {α : Type} [LinearOrderedField α] (shots : List (Shot α))
    (plane : Option (Plane α)) (vertex : Vertex α) (ids : List Double_Index)
    (h : all_uncalibrated shots ids) : orient_loop shots plane vertex ids = some vertex := by
  induction ids with
  | nil => rfl
  | cons id rest ih =>
    obtain ⟨shot, hs, hc⟩ := h id (List.mem_cons_self _ _)
    have hrest : all_uncalibrated shots rest := fun e he => h e (List.mem_cons_of_mem _ he)
    simp [orient_loop, hs, hc, ih hrest]

theorem orient_loop_skip {α : Type} [LinearOrderedField α] (shots : List (Shot α))
    (plane : Option (Plane α)) (vertex : Vertex α) (pre rest : List Double_Index)
    (h : all_uncalibrated shots pre) :
    orient_loop shots plane vertex (pre ++ rest) = orient_loop shots plane vertex rest := by
  induction pre with
  | nil => rfl
  | cons id pre ih =>
    obtain ⟨shot, hs, hc⟩ := h id (List.mem_cons_self _ _)
    have hpre : all_uncalibrated shots pre := fun e he => h e (List.mem_cons_of_mem _ he)
    simp [orient_loop, hs, hc, ih hpre]

theorem orient_loop_calibrated {α : Type} [LinearOrderedField α] (shots : List (Shot α))
    (plane : Plane α) (vertex : Vertex α) (pre post : List Double_Index) (id : Double_Index)
    (shot : Shot α) (h : all_uncalibrated shots pre) (hs : shots[id.primary]? = some shot)
    (hc : shot.calibrated = true) :
    orient_loop shots (some plane) vertex (pre ++ id :: post) =
      some (if dot_3 plane shot.T > plane.d then
        with_normal vertex (vertex.nx * -1) (vertex.ny * -1) (vertex.nz * -1) else vertex) := by
  rw [orient_loop_skip shots (some plane) vertex pre _ h]
  by_cases hd : dot_3 plane shot.T > plane.d <;> simp [orient_loop, hs, hc, hd, with_normal]

/-- Once the plane has been released, the loop has no defined result as soon
as it reaches a calibrated shot. -/
theorem orient_loop_released {α : Type} [LinearOrderedField α] (shots : List (Shot α))
    (vertex : Vertex α) (pre post : List Double_Index) (id : Double_Index) (shot : Shot α)
    (h : all_uncalibrated shots pre) (hs : shots[id.primary]? = some shot)
    (hc : shot.calibrated = true) :
    orient_loop shots none vertex (pre ++ id :: post) = none := by
  rw [orient_loop_skip shots none vertex pre _ h]
  simp [orient_loop, hs, hc]

theorem orient_loop_geometry {α : Type} [LinearOrderedField α] (shots : List (Shot α))
    (plane : Option (Plane α)) (vertex w : Vertex α) (ids : List Double_Index)
    (h : orient_loop shots plane vertex ids = some w) :
    same_geometry vertex w ∧
      ((w.nx = vertex.nx ∧ w.ny = vertex.ny ∧ w.nz = vertex.nz) ∨
       (w.nx = vertex.nx * -1 ∧ w.ny = vertex.ny * -1 ∧ w.nz = vertex.nz * -1)) := by
  induction ids with
  | nil =>
    simp only [orient_loop, Option.some.injEq] at h
    subst h
    exact ⟨⟨rfl, rfl, rfl, rfl⟩, Or.inl ⟨rfl, rfl, rfl⟩⟩
  | cons id rest ih =>
    simp only [orient_loop] at h
    split at h
    · exact absurd h (by simp)
    · split at h
      · exact ih h
      · split at h
        · exact absurd h (by simp)
        · split at h
          · simp only [Option.some.injEq] at h
            subst h
            exact ⟨⟨rfl, rfl, rfl, rfl⟩, Or.inr ⟨rfl, rfl, rfl⟩⟩
          · simp only [Option.some.injEq] at h
            subst h
            exact ⟨⟨rfl, rfl, rfl, rfl⟩, Or.inl ⟨rfl, rfl, rfl⟩⟩

/-! ## One call of `compute_vertex_normal_from_pointcloud` -/

theorem compute_of_fit {α : Type} [LinearOrderedField α] (sqrt : α → α) (annkSearch : Search α)
    (fit : Fitter α) (s : Store α) (vertex_id : Nat) (tree : ANNkd_tree α)
    (reindex : Nat → Option Nat) (vertex : Vertex α) (ids : List Nat) (fitted : Plane α)
    (incidence : Vertex_Incidence)
    (hv : s.vertices[vertex_id]? = some vertex)
    (hn : nearest_ids annkSearch tree reindex (vertex.x, vertex.y, vertex.z) = some ids)
    (hf : fit s.vertices ids compute_normals_K = some fitted)
    (hi : s.vertices_incidence[vertex_id]? = some incidence) :
    compute_vertex_normal_from_pointcloud sqrt annkSearch fit s vertex_id tree reindex =
      (orient_loop s.shots (FREE (some (normalize_vector sqrt fitted)))
        (with_normal vertex (normalize_vector sqrt fitted).a (normalize_vector sqrt fitted).b
          (normalize_vector sqrt fitted).c) incidence.shot_point_ids).map
        (with_vertex s vertex_id) := by
  simp only [compute_vertex_normal_from_pointcloud, hv, hn, hf, hi, with_normal]
  cases orient_loop s.shots (FREE (some (normalize_vector sqrt fitted))) _
    incidence.shot_point_ids <;> rfl

theorem same_geometry_refl {α : Type} (v : Vertex α) : same_geometry v v :=
  ⟨rfl, rfl, rfl, rfl⟩

theorem same_geometry_trans {α : Type} {u v w : Vertex α} (h₁ : same_geometry u v)
    (h₂ : same_geometry v w) : same_geometry u w :=
  ⟨h₂.1.trans h₁.1, h₂.2.1.trans h₁.2.1, h₂.2.2.1.trans h₁.2.2.1, h₂.2.2.2.trans h₁.2.2.2⟩

theorem Frame_refl {α : Type} (s : Store α) : Frame s s :=
  ⟨rfl, rfl, rfl, fun _ v hv => ⟨v, hv, same_geometry_refl v, fun _ => rfl⟩⟩

theorem Frame_trans {α : Type} {s t u : Store α} (h₁ : Frame s t) (h₂ : Frame t u) :
    Frame s u := by
  obtain ⟨hs₁, hi₁, hl₁, hv₁⟩ := h₁
  obtain ⟨hs₂, hi₂, hl₂, hv₂⟩ := h₂
  refine ⟨hs₂.trans hs₁, hi₂.trans hi₁, hl₂.trans hl₁, ?_⟩
  intro i v hv
  obtain ⟨w, hw, hg, hn⟩ := hv₁ i v hv
  obtain ⟨x, hx, hg', hn'⟩ := hv₂ i w hw
  refine ⟨x, hx, same_geometry_trans hg hg', ?_⟩
  intro hr
  have hwv : w = v := hn hr
  have hwr : w.reconstructed = false := by rw [hwv]; exact hr
  rw [hn' hwr, hwv]

theorem Frame_with_vertex {α : Type} (s : Store α) (i : Nat) (v w : Vertex α)
    (hv : s.vertices[i]? = some v) (hr : v.reconstructed = true) (hg : same_geometry v w) :
    Frame s (with_vertex s i w) := by
  refine ⟨rfl, rfl, by simp [with_vertex], ?_⟩
  intro j u hu
  by_cases hij : i = j
  · subst hij
    have hlt : i < s.vertices.length := by
      rcases List.getElem?_eq_some.1 hv with ⟨h, _⟩
      exact h
    have huv : u = v := by
      rw [hv] at hu
      exact (Option.some.inj hu).symm
    subst huv
    refine ⟨w, by simp [with_vertex, List.getElem?_set_self hlt], hg, ?_⟩
    intro hf
    rw [hr] at hf
    exact absurd hf (by simp)
  · exact ⟨u, by simp [with_vertex, List.getElem?_set_ne hij, hu], same_geometry_refl u,
      fun _ => rfl⟩

theorem compute_frame {α : Type} [LinearOrderedField α] (sqrt : α → α) (annkSearch : Search α)
    (fit : Fitter α) (s t : Store α) (i : Nat) (tree : ANNkd_tree α)
    (reindex : Nat → Option Nat) (v : Vertex α) (hv : s.vertices[i]? = some v)
    (hr : v.reconstructed = true)
    (h : compute_vertex_normal_from_pointcloud sqrt annkSearch fit s i tree reindex = some t) :
    Frame s t := by
  simp only [compute_vertex_normal_from_pointcloud, hv] at h
  split at h
  · exact absurd h (by simp)
  · split at h
    · simp only [Option.some.injEq] at h
      subst h
      exact Frame_refl s
    · split at h
      · exact absurd h (by simp)
      · split at h
        · exact absurd h (by simp)
        · rename_i w hw
          simp only [Option.some.injEq] at h
          subst h
          have hg := (orient_loop_geometry _ _ _ _ _ hw).1
          exact Frame_with_vertex s i v w hv hr hg

theorem normals_step_frame {α : Type} [LinearOrderedField α] (sqrt : α → α)
    (annkSearch : Search α) (fit : Fitter α) (tree : ANNkd_tree α)
    (reindex : Nat → Option Nat) (s t : Store α) (i : Nat)
    (h : normals_step sqrt annkSearch fit tree reindex s i = some t) : Frame s t := by
  simp only [normals_step] at h
  split at h
  · exact absurd h (by simp)
  · rename_i v hv
    split at h
    · rename_i hr
      exact compute_frame sqrt annkSearch fit s t i tree reindex v hv hr h
    · simp only [Option.some.injEq] at h
      subst h
      exact Frame_refl s

theorem normals_loop_frame {α : Type} [LinearOrderedField α] (sqrt : α → α)
    (annkSearch : Search α) (fit : Fitter α) (tree : ANNkd_tree α)
    (reindex : Nat → Option Nat) (is : List Nat) (s t : Store α)
    (h : normals_loop sqrt annkSearch fit tree reindex is s = some t) : Frame s t := by
  induction is generalizing s with
  | nil =>
    simp only [normals_loop, Option.some.injEq] at h
    subst h
    exact Frame_refl s
  | cons i is ih =>
    simp only [normals_loop] at h
    split at h
    · exact absurd h (by simp)
    · rename_i s' hs'
      exact Frame_trans (normals_step_frame sqrt annkSearch fit tree reindex s s' i hs') (ih s' h)

theorem normals_loop_noop {α : Type} [LinearOrderedField α] (sqrt : α → α)
    (annkSearch : Search α) (fit : Fitter α) (tree : ANNkd_tree α)
    (reindex : Nat → Option Nat) (is : List Nat) (s : Store α)
    (h : ∀ i ∈ is, ∃ v, s.vertices[i]? = some v ∧ v.reconstructed = false) :
    normals_loop sqrt annkSearch fit tree reindex is s = some s := by
  induction is with
  | nil => rfl
  | cons i is ih =>
    obtain ⟨v, hv, hr⟩ := h i (List.mem_cons_self _ _)
    have hrest : ∀ j ∈ is, ∃ v, s.vertices[j]? = some v ∧ v.reconstructed = false :=
      fun j hj => h j (List.mem_cons_of_mem _ hj)
    simp [normals_loop, normals_step, hv, hr, ih hrest]

/-! ## The compaction loop -/

theorem compact_loop_spec {α : Type} (vs : List (Vertex α)) :
    ∀ (i : Nat) (c : Compact α), CompactSpec vs i c (compact_loop vs i c) := by
  induction vs with
  | nil =>
    intro i c
    refine ⟨by simp [compact_loop], fun _ _ => ⟨rfl, rfl⟩, fun _ _ => ⟨rfl, rfl⟩, ?_, ?_, ?_⟩
    · intro j h₁ h₂
      simp only [compact_loop] at h₂
      omega
    · intro j₁ j₂ a b h₁ h₂ h₃
      simp only [compact_loop] at h₃
      omega
    · intro k v hk
      simp at hk
  | cons v rest ih =>
    intro i c
    by_cases hr : v.reconstructed = true
    · have hstep : compact_loop (v :: rest) i c = compact_loop rest (i + 1)
          { vertices_refactor := fun j => if j = c.count then some i else c.vertices_refactor j
            ann_points := fun j =>
              if j = c.count then some (v.x, v.y, v.z) else c.ann_points j
            count := c.count + 1 } := by
        simp [compact_loop, hr]
      rw [hstep]
      obtain ⟨h1, h2, h3, h4, h5, h6⟩ := ih (i + 1)
        { vertices_refactor := fun j => if j = c.count then some i else c.vertices_refactor j
          ann_points := fun j =>
            if j = c.count then some (v.x, v.y, v.z) else c.ann_points j
          count := c.count + 1 }
      simp only at h1 h2 h3 h4 h5 h6
      have hnew : ∀ j, c.count ≤ j → j < (compact_loop rest (i + 1)
          { vertices_refactor := fun j => if j = c.count then some i else c.vertices_refactor j
            ann_points := fun j =>
              if j = c.count then some (v.x, v.y, v.z) else c.ann_points j
            count := c.count + 1 }).count →
          ∃ (k : Nat) (w : Vertex α), (v :: rest)[k]? = some w ∧ w.reconstructed = true ∧
            (compact_loop rest (i + 1)
              { vertices_refactor := fun j =>
                  if j = c.count then some i else c.vertices_refactor j
                ann_points := fun j =>
                  if j = c.count then some (v.x, v.y, v.z) else c.ann_points j
                count := c.count + 1 }).vertices_refactor j = some (i + k) ∧
            (compact_loop rest (i + 1)
              { vertices_refactor := fun j =>
                  if j = c.count then some i else c.vertices_refactor j
                ann_points := fun j =>
                  if j = c.count then some (v.x, v.y, v.z) else c.ann_points j
                count := c.count + 1 }).ann_points j = some (w.x, w.y, w.z) := by
        intro j hj₁ hj₂
        by_cases hjc : j = c.count
        · subst hjc
          obtain ⟨e₁, e₂⟩ := h2 c.count (Nat.lt_succ_self _)
          exact ⟨0, v, by simp, hr, by simpa using e₁, by simpa using e₂⟩
        · obtain ⟨k, w, hk, hw, e₁, e₂⟩ := h4 j (by omega) hj₂
          refine ⟨k + 1, w, by simpa using hk, hw, ?_, e₂⟩
          rw [e₁]
          congr 1
          omega
      refine ⟨?_, ?_, ?_, hnew, ?_, ?_⟩
      · rw [h1]
        simp only [List.countP_cons, hr, if_true]
        omega
      · intro j hj
        obtain ⟨e₁, e₂⟩ := h2 j (by omega)
        have hne : j ≠ c.count := by omega
        simp only [hne, if_false] at e₁ e₂
        exact ⟨e₁, e₂⟩
      · intro j hj
        obtain ⟨e₁, e₂⟩ := h3 j hj
        have hne : j ≠ c.count := by omega
        simp only [hne, if_false] at e₁ e₂
        exact ⟨e₁, e₂⟩
      · intro j₁ j₂ a b hj₁ hlt hj₂ ha hb
        by_cases hjc : j₁ = c.count
        · subst hjc
          obtain ⟨e₁, _⟩ := h2 c.count (Nat.lt_succ_self _)
          simp only [if_true] at e₁
          rw [e₁] at ha
          obtain ⟨k, w, _, _, e₂, _⟩ := h4 j₂ (by omega) hj₂
          rw [e₂] at hb
          have ha' := Option.some.inj ha
          have hb' := Option.some.inj hb
          omega
        · exact h5 j₁ j₂ a b (by omega) hlt hj₂ ha hb
      · intro k w hk hw
        cases k with
        | zero =>
          obtain ⟨e₁, _⟩ := h2 c.count (Nat.lt_succ_self _)
          simp only [if_true] at e₁
          exact ⟨c.count, Nat.le_refl _, by omega, by simpa using e₁⟩
        | succ k =>
          obtain ⟨j, hj₁, hj₂, e⟩ := h6 k w (by simpa using hk) hw
          refine ⟨j, by omega, hj₂, ?_⟩
          rw [e]
          congr 1
          omega
    · have hstep : compact_loop (v :: rest) i c = compact_loop rest (i + 1) c := by
        simp [compact_loop, hr]
      rw [hstep]
      obtain ⟨h1, h2, h3, h4, h5, h6⟩ := ih (i + 1) c
      refine ⟨?_, h2, h3, ?_, h5, ?_⟩
      · rw [h1]
        simp [List.countP_cons, hr]
      · intro j hj₁ hj₂
        obtain ⟨k, w, hk, hw, e₁, e₂⟩ := h4 j hj₁ hj₂
        refine ⟨k + 1, w, by simpa using hk, hw, ?_, e₂⟩
        rw [e₁]
        congr 1
        omega
      · intro k w hk hw
        cases k with
        | zero =>
          simp only [List.getElem?_cons_zero, Option.some.injEq] at hk
          subst hk
          exact absurd hw hr
        | succ k =>
          obtain ⟨j, hj₁, hj₂, e⟩ := h6 k w (by simpa using hk) hw
          refine ⟨j, hj₁, hj₂, ?_⟩
          rw [e]
          congr 1
          omega

theorem compaction_spec {α : Type} (vs : List (Vertex α)) :
    CompactSpec vs 0 (Compact.init α) (compaction vs) :=
  compact_loop_spec vs 0 (Compact.init α)

/-! ## The batch as one independent computation per vertex -/

theorem same_geometry_iff {α : Type} (v w : Vertex α) :
    same_geometry v w ↔ geometry w = geometry v := by
  simp [same_geometry, geometry, Prod.ext_iff]

theorem with_normal_of_same_geometry {α : Type} (v w : Vertex α) (a b c : α)
    (h : same_geometry v w) : with_normal w a b c = with_normal v a b c := by
  obtain ⟨h₁, h₂, h₃, h₄⟩ := h
  cases v
  cases w
  simp only at h₁ h₂ h₃ h₄
  simp [with_normal, h₁, h₂, h₃, h₄]

theorem set_of_getElem? {β : Type} (l : List β) (i : Nat) (b : β) (h : l[i]? = some b) :
    l.set i b = l := by
  apply List.ext_getElem?
  intro j
  by_cases hij : i = j
  · subst hij
    rw [List.getElem?_set_self (List.getElem?_eq_some.1 h).1, h]
  · rw [List.getElem?_set_ne hij]

theorem processed_geometry {α : Type} [LinearOrderedField α] (sqrt : α → α)
    (annkSearch : Search α) (fit : Fitter α) (s : Store α) (tree : ANNkd_tree α)
    (reindex : Nat → Option Nat) (i : Nat) (v w : Vertex α)
    (h : processed sqrt annkSearch fit s tree reindex i v = some w) : same_geometry v w := by
  simp only [processed] at h
  split at h
  · split at h
    · exact absurd h (by simp)
    · split at h
      · simp only [Option.some.injEq] at h
        subst h
        exact same_geometry_refl v
      · split at h
        · exact absurd h (by simp)
        · exact (orient_loop_geometry _ _ _ _ _ h).1
  · simp only [Option.some.injEq] at h
    subst h
    exact same_geometry_refl v

theorem normals_step_eq {α : Type} [LinearOrderedField α] (sqrt : α → α)
    (annkSearch : Search α) (fit : Fitter α) (hfit : reads_geometry_only fit)
    (s st : Store α) (tree : ANNkd_tree α) (reindex : Nat → Option Nat) (i : Nat)
    (v : Vertex α) (hsh : st.shots = s.shots)
    (hin : st.vertices_incidence = s.vertices_incidence)
    (hge : st.vertices.map geometry = s.vertices.map geometry)
    (hv : st.vertices[i]? = some v) :
    normals_step sqrt annkSearch fit tree reindex st i =
      (processed sqrt annkSearch fit s tree reindex i v).map (with_vertex st i) := by
  have hself : with_vertex st i v = st := by
    simp only [with_vertex, set_of_getElem? _ _ _ hv]
  simp only [normals_step, hv, processed, compute_vertex_normal_from_pointcloud]
  by_cases hr : v.reconstructed = true
  · rw [if_pos hr, if_pos hr]
    cases hn : nearest_ids annkSearch tree reindex (v.x, v.y, v.z) with
    | none => rfl
    | some ids =>
      simp only []
      rw [hfit st.vertices s.vertices ids compute_normals_K hge]
      cases hf : fit s.vertices ids compute_normals_K with
      | none => simp [hself]
      | some fitted =>
        simp only [hin, hsh]
        cases hi : s.vertices_incidence[i]? with
        | none => rfl
        | some incidence =>
          have hmap : ∀ o : Option (Vertex α),
              (match o with
                | none => none
                | some vertex => some { st with vertices := st.vertices.set i vertex }) =
              o.map (with_vertex st i) := by
            intro o
            cases o <;> rfl
          simp only [← hsh, ← hin]
          exact hmap _
  · simp [hr, hself]

theorem normals_loop_eq {α : Type} [LinearOrderedField α] (sqrt : α → α)
    (annkSearch : Search α) (fit : Fitter α) (hfit : reads_geometry_only fit)
    (s : Store α) (tree : ANNkd_tree α) (reindex : Nat → Option Nat) :
    ∀ (rest done : List (Vertex α)) (st : Store α), st.vertices = done ++ rest →
      st.shots = s.shots → st.vertices_incidence = s.vertices_incidence →
      st.vertices.map geometry = s.vertices.map geometry →
      normals_loop sqrt annkSearch fit tree reindex (List.range' done.length rest.length) st =
        (process_all (processed sqrt annkSearch fit s tree reindex) done.length rest).map
          (fun ws => { st with vertices := done ++ ws }) := by
  intro rest
  induction rest with
  | nil =>
    intro done st hst _ _ _
    simp only [List.length_nil, List.range'_zero, normals_loop, process_all, Option.map_some']
    rw [← hst]
  | cons v rest ih =>
    intro done st hst hsh hin hge
    have hv : st.vertices[done.length]? = some v := by
      rw [hst, List.getElem?_append_right (Nat.le_refl _)]
      simp
    simp only [List.length_cons, List.range'_succ, normals_loop, process_all]
    rw [normals_step_eq sqrt annkSearch fit hfit s st tree reindex done.length v hsh hin hge hv]
    cases hp : processed sqrt annkSearch fit s tree reindex done.length v with
    | none => rfl
    | some w =>
      have hg : geometry w = geometry v :=
        (same_geometry_iff v w).1 (processed_geometry _ _ _ _ _ _ _ _ _ hp)
      have hset : (with_vertex st done.length w).vertices = (done ++ [w]) ++ rest := by
        simp [with_vertex, hst]
      have hge' : (with_vertex st done.length w).vertices.map geometry =
          s.vertices.map geometry := by
        rw [hset, ← hge, hst]
        simp [hg]
      have key := ih (done ++ [w]) (with_vertex st done.length w) hset hsh hin hge'
      simp only [List.length_append, List.length_singleton] at key
      simp only [Option.map_some']
      rw [key]
      cases process_all (processed sqrt annkSearch fit s tree reindex) (done.length + 1)
        rest with
      | none => rfl
      | some ws => simp [with_vertex]

/-- When the fitter reads positions and flags only, the batch is `processed`
applied to every vertex of the store it started from. -/
theorem batch_eq_process_all {α : Type} [LinearOrderedField α] (sqrt : α → α)
    (annkSearch : Search α) (fit : Fitter α) (hfit : reads_geometry_only fit) (s : Store α) :
    tool_triangulate_compute_normals sqrt annkSearch fit s =
      (process_all (processed sqrt annkSearch fit s
          { pa := (compaction s.vertices).ann_points, n_pts := (compaction s.vertices).count }
          (compaction s.vertices).vertices_refactor) 0 s.vertices).map
        (fun ws => { s with vertices := ws }) := by
  have key := normals_loop_eq sqrt annkSearch fit hfit s
    { pa := (compaction s.vertices).ann_points, n_pts := (compaction s.vertices).count }
    (compaction s.vertices).vertices_refactor s.vertices [] s rfl rfl rfl rfl
  simp only [List.length_nil, List.nil_append] at key
  simp only [tool_triangulate_compute_normals, ALL, List.range_eq_range']
  exact key

theorem process_all_fixed {α : Type} (f g : Nat → Vertex α → Option (Vertex α))
    (hfg : ∀ (j : Nat) (v w : Vertex α), f j v = some w → g j w = some w) :
    ∀ (vs ws : List (Vertex α)) (i : Nat), process_all f i vs = some ws →
      process_all g i ws = some ws := by
  intro vs
  induction vs with
  | nil =>
    intro ws i h
    simp only [process_all, Option.some.injEq] at h
    subst h
    rfl
  | cons v vs ih =>
    intro ws i h
    simp only [process_all] at h
    split at h
    · exact absurd h (by simp)
    · rename_i w hw
      split at h
      · exact absurd h (by simp)
      · rename_i ws' hws'
        simp only [Option.some.injEq] at h
        subst h
        simp [process_all, hfg i v w hw, ih ws' (i + 1) hws']

theorem process_all_geometry {α : Type} (f : Nat → Vertex α → Option (Vertex α))
    (hf : ∀ (j : Nat) (v w : Vertex α), f j v = some w → geometry w = geometry v) :
    ∀ (vs ws : List (Vertex α)) (i : Nat), process_all f i vs = some ws →
      ws.map geometry = vs.map geometry := by
  intro vs
  induction vs with
  | nil =>
    intro ws i h
    simp only [process_all, Option.some.injEq] at h
    subst h
    rfl
  | cons v vs ih =>
    intro ws i h
    simp only [process_all] at h
    split at h
    · exact absurd h (by simp)
    · rename_i w hw
      split at h
      · exact absurd h (by simp)
      · rename_i ws' hws'
        simp only [Option.some.injEq] at h
        subst h
        simp [hf i v w hw, ih ws' (i + 1) hws']

theorem compact_loop_congr {α : Type} :
    ∀ (vs vs' : List (Vertex α)) (i : Nat) (c : Compact α),
      vs.map geometry = vs'.map geometry → compact_loop vs i c = compact_loop vs' i c := by
  intro vs
  induction vs with
  | nil =>
    intro vs' i c h
    cases vs' with
    | nil => rfl
    | cons _ _ => simp at h
  | cons v vs ih =>
    intro vs' i c h
    cases vs' with
    | nil => simp at h
    | cons v' vs' =>
      simp only [List.map_cons, List.cons.injEq, geometry, Prod.mk.injEq] at h
      obtain ⟨⟨hx, hy, hz, hr⟩, hrest⟩ := h
      simp only [compact_loop, hx, hy, hz, hr]
      split
      · exact ih vs' (i + 1) c hrest
      · exact ih vs' (i + 1) _ hrest

theorem compaction_congr {α : Type} (vs vs' : List (Vertex α))
    (h : vs.map geometry = vs'.map geometry) : compaction vs = compaction vs' :=
  compact_loop_congr vs vs' 0 (Compact.init α) h

theorem processed_fixed {α : Type} [LinearOrderedField α] (sqrt : α → α)
    (annkSearch : Search α) (fit : Fitter α) (s : Store α) (tree : ANNkd_tree α)
    (reindex : Nat → Option Nat) (i : Nat) (v w : Vertex α)
    (h : processed sqrt annkSearch fit s tree reindex i v = some w) :
    processed sqrt annkSearch fit s tree reindex i w = some w := by
  have hg := processed_geometry _ _ _ _ _ _ _ _ _ h
  obtain ⟨hx, hy, hz, hr⟩ := hg
  simp only [processed] at h ⊢
  rw [hx, hy, hz, hr]
  split at h
  · rename_i hrec
    rw [if_pos hrec]
    split at h
    · exact absurd h (by simp)
    · rename_i ids hids
      split at h
      · rename_i hfail
        simp only [Option.some.injEq] at h
        subst h
        simp [hfail]
      · rename_i fitted hfit
        split at h
        · exact absurd h (by simp)
        · rename_i incidence hinc
          rw [with_normal_of_same_geometry v w _ _ _ ⟨hx, hy, hz, hr⟩]
          exact h
  · rename_i hrec
    rw [if_neg hrec]

theorem processed_congr {α : Type} [LinearOrderedField α] (sqrt : α → α)
    (annkSearch : Search α) (fit : Fitter α) (hfit : reads_geometry_only fit)
    (s t : Store α) (hsh : t.shots = s.shots)
    (hin : t.vertices_incidence = s.vertices_incidence)
    (hge : t.vertices.map geometry = s.vertices.map geometry) (tree : ANNkd_tree α)
    (reindex : Nat → Option Nat) (i : Nat) (v : Vertex α) :
    processed sqrt annkSearch fit t tree reindex i v =
      processed sqrt annkSearch fit s tree reindex i v := by
  simp only [processed, hsh, hin]
  have : ∀ ids, fit t.vertices ids compute_normals_K = fit s.vertices ids compute_normals_K :=
    fun ids => hfit _ _ ids _ hge
  simp only [this]

/-! ## A batch whose reads are all defined ends -/

theorem Frame_geometry {α : Type} {s t : Store α} (h : Frame s t) :
    t.vertices.map geometry = s.vertices.map geometry := by
  obtain ⟨_, _, hlen, hvs⟩ := h
  apply List.ext_getElem?
  intro i
  simp only [List.getElem?_map]
  cases hi : s.vertices[i]? with
  | none =>
    have hle : s.vertices.length ≤ i := List.getElem?_eq_none_iff.1 hi
    rw [List.getElem?_eq_none (by omega)]
  | some v =>
    obtain ⟨w, hw, hg, _⟩ := hvs i v hi
    rw [hw]
    simp only [Option.map_some', (same_geometry_iff v w).1 hg]

theorem normals_step_untouched {α : Type} [LinearOrderedField α] (sqrt : α → α)
    (annkSearch : Search α) (fit : Fitter α) (tree : ANNkd_tree α)
    (reindex : Nat → Option Nat) (s t : Store α) (i j : Nat) (hij : i ≠ j)
    (h : normals_step sqrt annkSearch fit tree reindex s i = some t) :
    t.vertices[j]? = s.vertices[j]? := by
  simp only [normals_step] at h
  split at h
  · exact absurd h (by simp)
  · split at h
    · simp only [compute_vertex_normal_from_pointcloud] at h
      split at h
      · exact absurd h (by simp)
      · split at h
        · exact absurd h (by simp)
        · split at h
          · simp only [Option.some.injEq] at h
            subst h
            rfl
          · split at h
            · exact absurd h (by simp)
            · split at h
              · exact absurd h (by simp)
              · simp only [Option.some.injEq] at h
                subst h
                simp [List.getElem?_set_ne hij]
    · simp only [Option.some.injEq] at h
      subst h
      rfl

theorem normals_loop_untouched {α : Type} [LinearOrderedField α] (sqrt : α → α)
    (annkSearch : Search α) (fit : Fitter α) (tree : ANNkd_tree α)
    (reindex : Nat → Option Nat) (is : List Nat) (j : Nat) (hj : j ∉ is) (s t : Store α)
    (h : normals_loop sqrt annkSearch fit tree reindex is s = some t) :
    t.vertices[j]? = s.vertices[j]? := by
  induction is generalizing s with
  | nil =>
    simp only [normals_loop, Option.some.injEq] at h
    subst h
    rfl
  | cons i is ih =>
    simp only [normals_loop] at h
    split at h
    · exact absurd h (by simp)
    · rename_i s' hs'
      have hne : i ≠ j := fun e => hj (e ▸ List.mem_cons_self _ _)
      rw [ih (fun hm => hj (List.mem_cons_of_mem _ hm)) s' h,
        normals_step_untouched sqrt annkSearch fit tree reindex s s' i j hne hs']

/-- On a store whose reads are all defined, every step of the second loop has
a result, whatever the fitter answers and whatever normals were written
before. -/
theorem normals_step_defined {α : Type} [LinearOrderedField α] (sqrt : α → α)
    (annkSearch : Search α) (fit : Fitter α) (s st : Store α)
    (hdef : reads_defined annkSearch s) (hfr : Frame s st) (i : Nat)
    (hi : i < s.vertices.length) :
    ∃ st', normals_step sqrt annkSearch fit
      { pa := (compaction s.vertices).ann_points, n_pts := (compaction s.vertices).count }
      (compaction s.vertices).vertices_refactor st i = some st' := by
  obtain ⟨hsearch, hlen, hshots⟩ := hdef
  obtain ⟨hsh, hin, _, hvs⟩ := hfr
  obtain ⟨w, hw, hg, _⟩ := hvs i s.vertices[i] (List.getElem?_eq_getElem hi)
  simp only [normals_step, hw]
  by_cases hr : w.reconstructed = true
  · rw [if_pos hr]
    obtain ⟨hx, hy, hz, hrec⟩ := hg
    obtain ⟨ids, hids⟩ := hsearch i s.vertices[i] (List.getElem?_eq_getElem hi)
      (by rw [← hrec]; exact hr)
    rw [← hx, ← hy, ← hz] at hids
    simp only [compute_vertex_normal_from_pointcloud, hw, hids]
    cases fit st.vertices ids compute_normals_K with
    | none => exact ⟨st, rfl⟩
    | some fitted =>
      have hlt : i < s.vertices_incidence.length := by omega
      simp only [hin, hsh, List.getElem?_eq_getElem hlt]
      rw [orient_loop_uncalibrated _ _ _ _ (hshots _ (List.getElem_mem _))]
      exact ⟨_, rfl⟩
  · rw [if_neg hr]
    exact ⟨st, rfl⟩

theorem normals_loop_defined {α : Type} [LinearOrderedField α] (sqrt : α → α)
    (annkSearch : Search α) (fit : Fitter α) (s : Store α)
    (hdef : reads_defined annkSearch s) (is : List Nat)
    (his : ∀ i ∈ is, i < s.vertices.length) (st : Store α) (hfr : Frame s st) :
    ∃ st', normals_loop sqrt annkSearch fit
      { pa := (compaction s.vertices).ann_points, n_pts := (compaction s.vertices).count }
      (compaction s.vertices).vertices_refactor is st = some st' := by
  induction is generalizing st with
  | nil => exact ⟨st, rfl⟩
  | cons i is ih =>
    obtain ⟨t, ht⟩ := normals_step_defined sqrt annkSearch fit s st hdef hfr i
      (his i (List.mem_cons_self _ _))
    have hfr' : Frame s t := Frame_trans hfr (normals_step_frame _ _ _ _ _ _ _ _ ht)
    obtain ⟨st', hst'⟩ := ih (fun j hj => his j (List.mem_cons_of_mem _ hj)) t hfr'
    exact ⟨st', by simp only [normals_loop, ht, hst']⟩

/-- On a store whose reads are all defined the batch ends, whatever the
fitter answers. -/
theorem batch_defined {α : Type} [LinearOrderedField α] (sqrt : α → α)
    (annkSearch : Search α) (fit : Fitter α) (s : Store α)
    (hdef : reads_defined annkSearch s) :
    ∃ s', tool_triangulate_compute_normals sqrt annkSearch fit s = some s' :=
  normals_loop_defined sqrt annkSearch fit s hdef (ALL s.vertices.length)
    (fun i hi => by simpa [ALL] using hi) s (Frame_refl s)

theorem reads_defined_of_Frame {α : Type} (annkSearch : Search α) (s t : Store α)
    (hdef : reads_defined annkSearch s) (hfr : Frame s t) : reads_defined annkSearch t := by
  have hge := Frame_geometry hfr
  obtain ⟨hsearch, hlen, hshots⟩ := hdef
  obtain ⟨hsh, hin, hl, hvs⟩ := hfr
  refine ⟨?_, by rw [hin, hl, hlen], by rw [hin, hsh]; exact hshots⟩
  intro u vu hu hr
  rw [compaction_congr t.vertices s.vertices hge]
  have hlt : u < s.vertices.length := by
    rw [← hl]
    exact (List.getElem?_eq_some.1 hu).1
  obtain ⟨w, hw, ⟨hx, hy, hz, hrec⟩, _⟩ := hvs u s.vertices[u] (List.getElem?_eq_getElem hlt)
  rw [hu] at hw
  have hwv : vu = w := Option.some.inj hw
  subst hwv
  rw [hx, hy, hz]
  exact hsearch u s.vertices[u] (List.getElem?_eq_getElem hlt) (by rw [← hrec]; exact hr)

/-- A batch over a store with `n + 2` vertices is the step for vertex `0`, the
step for vertex `1`, and the loop over the others, which touches neither. -/
theorem batch_first_steps {α : Type} [LinearOrderedField α] (sqrt : α → α)
    (annkSearch : Search α) (fit : Fitter α) (s s' : Store α) (n : Nat)
    (hlen : s.vertices.length = n + 2)
    (h : tool_triangulate_compute_normals sqrt annkSearch fit s = some s') :
    ∃ t₀ t₁, normals_step sqrt annkSearch fit
        { pa := (compaction s.vertices).ann_points, n_pts := (compaction s.vertices).count }
        (compaction s.vertices).vertices_refactor s 0 = some t₀ ∧
      normals_step sqrt annkSearch fit
        { pa := (compaction s.vertices).ann_points, n_pts := (compaction s.vertices).count }
        (compaction s.vertices).vertices_refactor t₀ 1 = some t₁ ∧
      s'.vertices[0]? = t₀.vertices[0]? ∧ s'.vertices[1]? = t₁.vertices[1]? := by
  simp only [tool_triangulate_compute_normals, ALL, hlen, List.range_eq_range',
    List.range'_succ, normals_loop] at h
  split at h
  · exact absurd h (by simp)
  · rename_i t₀ ht₀
    split at h
    · exact absurd h (by simp)
    · rename_i t₁ ht₁
      have h0 : (0 : Nat) ∉ List.range' (0 + 1 + 1) n := by
        simp only [List.mem_range'_1]
        omega
      have h1 : (1 : Nat) ∉ List.range' (0 + 1 + 1) n := by
        simp only [List.mem_range'_1]
        omega
      refine ⟨t₀, t₁, ht₀, ht₁, ?_, normals_loop_untouched _ _ _ _ _ _ 1 h1 t₁ s' h⟩
      rw [normals_loop_untouched _ _ _ _ _ _ 0 h0 t₁ s' h,
        normals_step_untouched _ _ _ _ _ t₀ t₁ 1 0 (by decide) ht₁]

/-! ## The reverse map of a cloud without gaps -/

theorem compact_loop_all_reconstructed {α : Type} :
    ∀ (vs : List (Vertex α)) (i : Nat) (c : Compact α) (j : Nat),
      (∀ v ∈ vs, v.reconstructed = true) →
      (compact_loop vs i c).vertices_refactor j =
        if j < c.count then c.vertices_refactor j
        else if j < c.count + vs.length then some (i + (j - c.count))
        else c.vertices_refactor j := by
  intro vs
  induction vs with
  | nil =>
    intro i c j _
    by_cases hj : j < c.count <;> simp [compact_loop, hj]
  | cons v vs ih =>
    intro i c j h
    have hv : v.reconstructed = true := h v (List.mem_cons_self _ _)
    have hvs : ∀ w ∈ vs, w.reconstructed = true := fun w hw => h w (List.mem_cons_of_mem _ hw)
    simp only [compact_loop, hv, Bool.not_true, Bool.false_eq_true, if_false]
    rw [ih (i + 1) _ j hvs]
    simp only [List.length_cons]
    by_cases h1 : j < c.count
    · have h2 : j < c.count + 1 := by omega
      have h3 : j ≠ c.count := by omega
      simp [h1, h2, h3]
    · by_cases h2 : j = c.count
      · subst h2
        simp
      · by_cases h3 : j < c.count + (vs.length + 1)
        · have h4 : ¬ j < c.count + 1 := by omega
          have h5 : j < c.count + 1 + vs.length := by omega
          have h6 : i + 1 + (j - (c.count + 1)) = i + (j - c.count) := by omega
          simp [h1, h3, h4, h5, h6]
        · have h4 : ¬ j < c.count + 1 := by omega
          have h5 : ¬ j < c.count + 1 + vs.length := by omega
          simp [h1, h2, h3, h4, h5]

theorem compaction_all_reconstructed {α : Type} (vs : List (Vertex α))
    (h : ∀ v ∈ vs, v.reconstructed = true) (j : Nat) (hj : j < vs.length) :
    (compaction vs).vertices_refactor j = some j := by
  rw [compaction, compact_loop_all_reconstructed vs 0 (Compact.init α) j h]
  simp [Compact.init, hj]

theorem nearest_loop_map (reindex : Nat → Option Nat) (ann_ids : Nat → Int) (g : Nat → Nat)
    (is : List Nat) (h : ∀ i ∈ is, reindex_lookup reindex (ann_ids i) = some (g i)) :
    nearest_loop reindex ann_ids is = some (is.map g) := by
  induction is with
  | nil => rfl
  | cons i is ih =>
    simp [nearest_loop, h i (List.mem_cons_self _ _),
      ih (fun k hk => h k (List.mem_cons_of_mem _ hk))]

/-! ## The cloud -/

theorem cloud_all_reconstructed {α : Type} [LinearOrderedField α] (shots : List (Shot α))
    (observers : List Double_Index) :
    ∀ v ∈ (store_cloud α shots observers).vertices, v.reconstructed = true := by
  intro v hv
  simp only [store_cloud, List.mem_cons, List.mem_map] at hv
  rcases hv with h | ⟨i, _, h⟩
  · rw [h]
    rfl
  · rw [← h]
    rfl

theorem cloud_length {α : Type} [LinearOrderedField α] (shots : List (Shot α))
    (observers : List Double_Index) : (store_cloud α shots observers).vertices.length = 200 := by
  simp [store_cloud]

theorem cloud_reindex {α : Type} [LinearOrderedField α] (shots : List (Shot α))
    (observers : List Double_Index) (j : Nat) (hj : j < 200) :
    (compaction (store_cloud α shots observers).vertices).vertices_refactor j = some j :=
  compaction_all_reconstructed _ (cloud_all_reconstructed shots observers) j
    (by rw [cloud_length]; exact hj)

theorem cloud_nearest_origin {α : Type} [LinearOrderedField α] (shots : List (Shot α))
    (observers : List Double_Index) (tree : ANNkd_tree α) (q : α × α × α) (h : q.1 = 0) :
    nearest_ids (search_cloud α) tree
      (compaction (store_cloud α shots observers).vertices).vertices_refactor q =
      some (List.range 200) := by
  have key := nearest_loop_map
    (compaction (store_cloud α shots observers).vertices).vertices_refactor
    (search_cloud α tree q compute_normals_K) (fun i => i) (List.range 200) (by
      intro i hi
      have hi' : i < 200 := List.mem_range.1 hi
      have e : search_cloud α tree q compute_normals_K i = (i : Int) := if_pos h
      rw [reindex_lookup, e, if_pos (Int.ofNat_nonneg i), Int.toNat_ofNat]
      exact cloud_reindex shots observers i hi')
  simpa [nearest_ids, compute_normals_K] using key

theorem cloud_nearest_far {α : Type} [LinearOrderedField α] (shots : List (Shot α))
    (observers : List Double_Index) (tree : ANNkd_tree α) (q : α × α × α) (h : q.1 ≠ 0) :
    nearest_ids (search_cloud α) tree
      (compaction (store_cloud α shots observers).vertices).vertices_refactor q =
      some ((List.range 200).map (fun i => 199 - i)) := by
  have key := nearest_loop_map
    (compaction (store_cloud α shots observers).vertices).vertices_refactor
    (search_cloud α tree q compute_normals_K) (fun i => 199 - i) (List.range 200) (by
      intro i hi
      have hi' : i < 200 := List.mem_range.1 hi
      have h0 : (0 : Int) ≤ 199 - (i : Int) := by omega
      have h1 : (199 - (i : Int)).toNat = 199 - i := by omega
      have e : search_cloud α tree q compute_normals_K i = 199 - (i : Int) := if_neg h
      rw [reindex_lookup, e, if_pos h0, h1]
      exact cloud_reindex shots observers (199 - i) (by omega))
  simpa [nearest_ids, compute_normals_K] using key

theorem cloud_vertex_zero {α : Type} [LinearOrderedField α] (shots : List (Shot α))
    (observers : List Double_Index) :
    (store_cloud α shots observers).vertices[0]? = some (cloud_origin α) := rfl

theorem cloud_incidence {α : Type} [LinearOrderedField α] (shots : List (Shot α))
    (observers : List Double_Index) (i : Nat) (hi : i < 200) :
    (store_cloud α shots observers).vertices_incidence[i]? =
      some { shot_point_ids := observers } := by
  show (List.replicate 200 _)[i]? = _
  rw [List.getElem?_replicate, if_pos hi]

theorem cloud_unobserved_uncalibrated {α : Type} [LinearOrderedField α] :
    all_uncalibrated (cloud_unobserved α).shots [{ primary := 0, secondary := 0 }] := by
  intro id hid
  rw [List.mem_singleton] at hid
  subst hid
  exact ⟨shot_off α, rfl, rfl⟩

theorem cloud_unobserved_reads_defined {α : Type} [LinearOrderedField α] :
    reads_defined (search_cloud α) (cloud_unobserved α) := by
  refine ⟨?_, (List.length_replicate _ _).trans (cloud_length _ _).symm, ?_⟩
  · intro u vu _ _
    by_cases h : vu.x = 0
    · exact ⟨_, cloud_nearest_origin _ _ _ (vu.x, vu.y, vu.z) h⟩
    · exact ⟨_, cloud_nearest_far _ _ _ (vu.x, vu.y, vu.z) h⟩
  · intro inc hinc
    have : inc = { shot_point_ids := [{ primary := 0, secondary := 0 }] } :=
      List.eq_of_mem_replicate hinc
    subst this
    exact cloud_unobserved_uncalibrated

theorem fit_far_reads_geometry_only {α : Type} [LinearOrderedField α] :
    reads_geometry_only (fit_far α) :=
  fun _ _ _ _ _ => rfl

/-- A call for a vertex whose incidence list names no calibrated shot writes
the normalised plane, unflipped. -/
theorem compute_unobserved {α : Type} [LinearOrderedField α] (sqrt : α → α)
    (annkSearch : Search α) (fit : Fitter α) (s : Store α) (vertex_id : Nat)
    (tree : ANNkd_tree α) (reindex : Nat → Option Nat) (vertex : Vertex α) (ids : List Nat)
    (fitted : Plane α) (incidence : Vertex_Incidence)
    (hv : s.vertices[vertex_id]? = some vertex)
    (hn : nearest_ids annkSearch tree reindex (vertex.x, vertex.y, vertex.z) = some ids)
    (hf : fit s.vertices ids compute_normals_K = some fitted)
    (hi : s.vertices_incidence[vertex_id]? = some incidence)
    (hall : all_uncalibrated s.shots incidence.shot_point_ids) :
    compute_vertex_normal_from_pointcloud sqrt annkSearch fit s vertex_id tree reindex =
      some (with_vertex s vertex_id (with_normal vertex (normalize_vector sqrt fitted).a
        (normalize_vector sqrt fitted).b (normalize_vector sqrt fitted).c)) := by
  rw [compute_of_fit sqrt annkSearch fit s vertex_id tree reindex vertex ids fitted incidence
    hv hn hf hi, orient_loop_uncalibrated _ _ _ _ hall]
  rfl

/-- A call for a vertex whose incidence list reaches a calibrated shot has no
defined result: the orientation test reads the plane after `FREE(plane)`. -/
theorem compute_observed {α : Type} [LinearOrderedField α] (sqrt : α → α)
    (annkSearch : Search α) (fit : Fitter α) (s : Store α) (vertex_id : Nat)
    (tree : ANNkd_tree α) (reindex : Nat → Option Nat) (vertex : Vertex α) (ids : List Nat)
    (fitted : Plane α) (incidence : Vertex_Incidence) (pre post : List Double_Index)
    (id : Double_Index) (shot : Shot α)
    (hv : s.vertices[vertex_id]? = some vertex)
    (hn : nearest_ids annkSearch tree reindex (vertex.x, vertex.y, vertex.z) = some ids)
    (hf : fit s.vertices ids compute_normals_K = some fitted)
    (hi : s.vertices_incidence[vertex_id]? = some incidence)
    (hlist : incidence.shot_point_ids = pre ++ id :: post)
    (hpre : all_uncalibrated s.shots pre) (hshot : s.shots[id.primary]? = some shot)
    (hcal : shot.calibrated = true) :
    compute_vertex_normal_from_pointcloud sqrt annkSearch fit s vertex_id tree reindex =
      none := by
  rw [compute_of_fit sqrt annkSearch fit s vertex_id tree reindex vertex ids fitted incidence
    hv hn hf hi, hlist]
  simp only [FREE]
  rw [orient_loop_released _ _ pre post id shot hpre hshot hcal]
  rfl

/-- The orientation loop on a plane that has not been released: the sign the
specification describes. -/
theorem orient_loop_intact {α : Type} [LinearOrderedField α] (shots : List (Shot α))
    (plane : Plane α) (vertex : Vertex α) (pre post : List Double_Index) (id : Double_Index)
    (shot : Shot α) (h : all_uncalibrated shots pre) (hs : shots[id.primary]? = some shot)
    (hc : shot.calibrated = true) :
    orient_loop shots (some plane) (with_normal vertex plane.a plane.b plane.c)
        (pre ++ id :: post) =
      some (with_normal vertex (spec_sign plane shot.T * plane.a)
        (spec_sign plane shot.T * plane.b) (spec_sign plane shot.T * plane.c)) := by
  rw [orient_loop_calibrated _ _ _ pre post id shot h hs hc]
  by_cases hd : dot_3 plane shot.T > plane.d
  · have hd' : dot_3 plane shot.T - plane.d > 0 := sub_pos.2 hd
    simp [spec_sign, hd, hd', with_normal]
  · have hd' : ¬ dot_3 plane shot.T - plane.d > 0 := fun h => hd (sub_pos.1 h)
    simp [spec_sign, hd, hd', with_normal]

theorem normals_step_reconstructed {α : Type} [LinearOrderedField α] (sqrt : α → α)
    (annkSearch : Search α) (fit : Fitter α) (tree : ANNkd_tree α)
    (reindex : Nat → Option Nat) (s : Store α) (i : Nat) (v : Vertex α)
    (hv : s.vertices[i]? = some v) (hr : v.reconstructed = true) :
    normals_step sqrt annkSearch fit tree reindex s i =
      compute_vertex_normal_from_pointcloud sqrt annkSearch fit s i tree reindex := by
  simp only [normals_step, hv, hr, if_true]

/-! ## Normalisation over the reals -/

theorem normalize_unit_plane (p : Plane ℝ) (h : p.a * p.a + p.b * p.b + p.c * p.c = 1) :
    normalize_vector Real.sqrt p = p := by
  cases p
  simp only at h
  simp [normalize_vector, h]

theorem normalize_unit_length (p : Plane ℝ) (h : p.a ≠ 0 ∨ p.b ≠ 0 ∨ p.c ≠ 0) :
    (normalize_vector Real.sqrt p).a ^ 2 + (normalize_vector Real.sqrt p).b ^ 2 +
      (normalize_vector Real.sqrt p).c ^ 2 = 1 := by
  have hpos : 0 < p.a * p.a + p.b * p.b + p.c * p.c := by
    rcases h with h | h | h
    · have := mul_self_pos.2 h
      nlinarith [mul_self_nonneg p.b, mul_self_nonneg p.c]
    · have := mul_self_pos.2 h
      nlinarith [mul_self_nonneg p.a, mul_self_nonneg p.c]
    · have := mul_self_pos.2 h
      nlinarith [mul_self_nonneg p.a, mul_self_nonneg p.b]
  have hr : Real.sqrt (p.a * p.a + p.b * p.b + p.c * p.c) ≠ 0 :=
    (Real.sqrt_pos.2 hpos).ne'
  have hsq : Real.sqrt (p.a * p.a + p.b * p.b + p.c * p.c) ^ 2 =
      p.a * p.a + p.b * p.b + p.c * p.c := Real.sq_sqrt hpos.le
  simp only [normalize_vector, div_pow]
  rw [← add_div, ← add_div, hsq]
  have : p.a ^ 2 + p.b ^ 2 + p.c ^ 2 = p.a * p.a + p.b * p.b + p.c * p.c := by ring
  rw [this]
  exact div_self hpos.ne'

/-! ## Written normals have length one -/

theorem kept_or_unit_refl (s : Store ℝ) : kept_or_unit s s :=
  ⟨rfl, fun _ v hv => ⟨v, hv, Or.inl ⟨rfl, rfl, rfl⟩⟩⟩

theorem kept_or_unit_trans {s t u : Store ℝ} (h₁ : kept_or_unit s t) (h₂ : kept_or_unit t u) :
    kept_or_unit s u := by
  refine ⟨h₂.1.trans h₁.1, ?_⟩
  intro i v hv
  obtain ⟨w, hw, hvw⟩ := h₁.2 i v hv
  obtain ⟨x, hx, hwx⟩ := h₂.2 i w hw
  refine ⟨x, hx, ?_⟩
  rcases hwx with ⟨e₁, e₂, e₃⟩ | hu
  · rcases hvw with ⟨f₁, f₂, f₃⟩ | hu'
    · exact Or.inl ⟨e₁.trans f₁, e₂.trans f₂, e₃.trans f₃⟩
    · right
      simp only [unit_normal, e₁, e₂, e₃] at hu' ⊢
      exact hu'
  · exact Or.inr hu

theorem oriented_unit (shots : List (Shot ℝ)) (fitted : Plane ℝ) (vertex w : Vertex ℝ)
    (ids : List Double_Index) (hnd : fitted.a ≠ 0 ∨ fitted.b ≠ 0 ∨ fitted.c ≠ 0)
    (plane : Option (Plane ℝ))
    (h : orient_loop shots plane
      (with_normal vertex (normalize_vector Real.sqrt fitted).a
        (normalize_vector Real.sqrt fitted).b (normalize_vector Real.sqrt fitted).c) ids =
      some w) : unit_normal w := by
  have hunit := normalize_unit_length fitted hnd
  rcases (orient_loop_geometry _ _ _ _ _ h).2 with ⟨e₁, e₂, e₃⟩ | ⟨e₁, e₂, e₃⟩
  · simp only [with_normal] at e₁ e₂ e₃
    simp only [unit_normal, e₁, e₂, e₃]
    exact hunit
  · simp only [with_normal] at e₁ e₂ e₃
    simp only [unit_normal, e₁, e₂, e₃]
    linarith [hunit]

theorem compute_kept_or_unit (annkSearch : Search ℝ) (fit : Fitter ℝ)
    (hplane : ∀ (vs : List (Vertex ℝ)) (ids : List Nat) (n : Nat) (p : Plane ℝ),
      fit vs ids n = some p → p.a ≠ 0 ∨ p.b ≠ 0 ∨ p.c ≠ 0)
    (s t : Store ℝ) (i : Nat) (tree : ANNkd_tree ℝ) (reindex : Nat → Option Nat)
    (h : compute_vertex_normal_from_pointcloud Real.sqrt annkSearch fit s i tree reindex =
      some t) : kept_or_unit s t := by
  simp only [compute_vertex_normal_from_pointcloud] at h
  split at h
  · exact absurd h (by simp)
  · rename_i vertex hv
    split at h
    · exact absurd h (by simp)
    · split at h
      · simp only [Option.some.injEq] at h
        subst h
        exact kept_or_unit_refl s
      · rename_i fitted hf
        split at h
        · exact absurd h (by simp)
        · split at h
          · exact absurd h (by simp)
          · rename_i w hw
            simp only [Option.some.injEq] at h
            subst h
            have hu : unit_normal w := oriented_unit _ fitted vertex w _ (hplane _ _ _ _ hf) _ hw
            refine ⟨by simp, ?_⟩
            intro j u hj
            by_cases hij : i = j
            · subst hij
              exact ⟨w, by simp [List.getElem?_set_self (List.getElem?_eq_some.1 hv).1],
                Or.inr hu⟩
            · exact ⟨u, by simp [List.getElem?_set_ne hij, hj], Or.inl ⟨rfl, rfl, rfl⟩⟩

theorem normals_loop_kept_or_unit (annkSearch : Search ℝ) (fit : Fitter ℝ)
    (hplane : ∀ (vs : List (Vertex ℝ)) (ids : List Nat) (n : Nat) (p : Plane ℝ),
      fit vs ids n = some p → p.a ≠ 0 ∨ p.b ≠ 0 ∨ p.c ≠ 0)
    (tree : ANNkd_tree ℝ) (reindex : Nat → Option Nat) (is : List Nat) (s t : Store ℝ)
    (h : normals_loop Real.sqrt annkSearch fit tree reindex is s = some t) :
    kept_or_unit s t := by
  induction is generalizing s with
  | nil =>
    simp only [normals_loop, Option.some.injEq] at h
    subst h
    exact kept_or_unit_refl s
  | cons i is ih =>
    simp only [normals_loop] at h
    split at h
    · exact absurd h (by simp)
    · rename_i s' hs'
      refine kept_or_unit_trans ?_ (ih s' h)
      simp only [normals_step] at hs'
      split at hs'
      · exact absurd hs' (by simp)
      · split at hs'
        · exact compute_kept_or_unit annkSearch fit hplane s s' i tree reindex hs'
        · simp only [Option.some.injEq] at hs'
          subst hs'
          exact kept_or_unit_refl s

/-! ## The claims -/

/-- C8: the compaction loop counts exactly the reconstructed vertices; every
slot below `count` holds the id of a reconstructed vertex together with that
vertex's position; the ids are strictly increasing; every reconstructed vertex
sits in exactly one slot and no other vertex sits in any; nothing is written at
or beyond `count` (so with no reconstructed vertex the arrays are empty and
`count = 0`). -/
theorem compaction_exact {α : Type} (vs : List (Vertex α)) :
    (compaction vs).count = vs.countP (fun v => v.reconstructed) ∧
    (∀ j, j < (compaction vs).count →
      ∃ (id : Nat) (v : Vertex α), (compaction vs).vertices_refactor j = some id ∧
        vs[id]? = some v ∧ v.reconstructed = true ∧
        (compaction vs).ann_points j = some (v.x, v.y, v.z)) ∧
    (∀ j k a b, j < k → k < (compaction vs).count →
      (compaction vs).vertices_refactor j = some a →
      (compaction vs).vertices_refactor k = some b → a < b) ∧
    (∀ (id : Nat) (v : Vertex α), vs[id]? = some v → v.reconstructed = true →
      ∃! j, j < (compaction vs).count ∧ (compaction vs).vertices_refactor j = some id) ∧
    (∀ (id : Nat) (v : Vertex α), vs[id]? = some v → v.reconstructed = false →
      ∀ j, j < (compaction vs).count → (compaction vs).vertices_refactor j ≠ some id) ∧
    (∀ j, (compaction vs).count ≤ j →
      (compaction vs).vertices_refactor j = none ∧ (compaction vs).ann_points j = none) := by
  obtain ⟨h1, _, h3, h4, h5, h6⟩ := compaction_spec vs
  simp only [Compact.init, Nat.zero_add, Nat.zero_le, forall_true_left, true_and] at h1 h3 h4 h5 h6
  have hslot : ∀ j, j < (compaction vs).count →
      ∃ (id : Nat) (v : Vertex α), (compaction vs).vertices_refactor j = some id ∧
        vs[id]? = some v ∧ v.reconstructed = true ∧
        (compaction vs).ann_points j = some (v.x, v.y, v.z) := by
    intro j hj
    obtain ⟨k, v, hk, hr, e₁, e₂⟩ := h4 j hj
    exact ⟨k, v, by simpa using e₁, hk, hr, e₂⟩
  refine ⟨h1, hslot, ?_, ?_, ?_, h3⟩
  · intro j k a b hjk hk ha hb
    exact h5 j k a b hjk hk ha hb
  · intro id v hv hr
    obtain ⟨j, hj, e⟩ := h6 id v hv hr
    refine ⟨j, ⟨hj, by simpa using e⟩, ?_⟩
    rintro j' ⟨hj', e'⟩
    have e₀ : (compaction vs).vertices_refactor j = some id := by simpa using e
    rcases Nat.lt_trichotomy j' j with hlt | heq | hgt
    · exact absurd (h5 j' j id id hlt hj e' e₀) (Nat.lt_irrefl _)
    · exact heq
    · exact absurd (h5 j j' id id hgt hj' e₀ e') (Nat.lt_irrefl _)
  · intro id v hv hr j hj e
    obtain ⟨id', v', e₁, hv', hr', _⟩ := hslot j hj
    rw [e₁] at e
    have : id' = id := Option.some.inj e
    subst this
    rw [hv] at hv'
    have : v = v' := Option.some.inj hv'
    subst this
    rw [hr] at hr'
    exact absurd hr' (by simp)

/-- C10: `tool_triangulate_clear` sets `reconstructed = false` and
`x = y = z = 0` on every vertex and keeps every normal, and a batch run right
after it ends in the very same store: no normal is computed. -/
theorem clear_then_compute_normals {α : Type} [LinearOrderedField α] (sqrt : α → α)
    (annkSearch : Search α) (fit : Fitter α) (s : Store α) :
    (tool_triangulate_clear s).vertices.length = s.vertices.length ∧
    (∀ (i : Nat) (v : Vertex α), s.vertices[i]? = some v →
      ∃ w, (tool_triangulate_clear s).vertices[i]? = some w ∧ w.reconstructed = false ∧
        w.x = 0 ∧ w.y = 0 ∧ w.z = 0 ∧ w.nx = v.nx ∧ w.ny = v.ny ∧ w.nz = v.nz) ∧
    tool_triangulate_compute_normals sqrt annkSearch fit (tool_triangulate_clear s) =
      some (tool_triangulate_clear s) := by
  have hclear : (tool_triangulate_clear s).vertices = s.vertices.map clear_vertex := rfl
  refine ⟨by simp [hclear], ?_, ?_⟩
  · intro i v hv
    exact ⟨clear_vertex v, by simp [hclear, hv], rfl, rfl, rfl, rfl, rfl, rfl, rfl⟩
  · apply normals_loop_noop
    intro i hi
    have hlt : i < s.vertices.length := by simpa [ALL, hclear] using hi
    exact ⟨clear_vertex s.vertices[i], by simp [hclear, hlt], rfl⟩

set_option maxRecDepth 100000 in
/-- C6 at the failing input `store_single` (exactly one reconstructed vertex):
when the search leaves `ANN_NULL_IDX` in the slots it cannot fill, the batch
runs into the undefined read `vertices_reindex[-1]`; when every slot holds
compact index `0`, the vertex is not skipped: the fitter is called, and the
plane it returns is written as the normal `(0, 0, 1)` over `(0, 0, 0)`. -/
theorem single_vertex_is_not_skipped :
    store_single.vertices.countP (fun v => v.reconstructed) = 1 ∧
    tool_triangulate_compute_normals Rat.sqrt (search_null ℚ)
      (fit_const { a := 0, b := 0, c := 1, d := 0 }) store_single = none ∧
    tool_triangulate_compute_normals Rat.sqrt (search_first ℚ)
      (fit_const { a := 0, b := 0, c := 1, d := 0 }) store_single = some store_single_after ∧
    store_single_after.vertices ≠ store_single.vertices := by
  refine ⟨rfl, ?_, ?_, ?_⟩
  · with_unfolding_all rfl
  · with_unfolding_all rfl
  · with_unfolding_all decide

set_option maxRecDepth 100000 in
/-- C7 at the failing input `store_single` (`n = 1 < K = 200`): the compact
array holds one point; the search that leaves `ANN_NULL_IDX = -1` in slot `1`
makes the call read `vertices_reindex[-1]`, which is undefined, so no candidate
list exists; and when every slot holds compact index `0` the fitter is handed
`200` identifiers with the count `200`, not `min(K, n) = 1` (the fitter
`fit_padded` fits on that call only, and its plane is written). -/
theorem candidate_list_is_padded :
    (compaction store_single.vertices).count = 1 ∧
    search_null ℚ
      { pa := (compaction store_single.vertices).ann_points
        n_pts := (compaction store_single.vertices).count } (0, 0, 0) compute_normals_K 1 = -1 ∧
    reindex_lookup (compaction store_single.vertices).vertices_refactor (-1) = none ∧
    nearest_ids (search_null ℚ)
      { pa := (compaction store_single.vertices).ann_points
        n_pts := (compaction store_single.vertices).count }
      (compaction store_single.vertices).vertices_refactor (0, 0, 0) = none ∧
    compute_vertex_normal_from_pointcloud Rat.sqrt (search_null ℚ) fit_padded store_single 0
      { pa := (compaction store_single.vertices).ann_points
        n_pts := (compaction store_single.vertices).count }
      (compaction store_single.vertices).vertices_refactor = none ∧
    nearest_ids (search_first ℚ)
      { pa := (compaction store_single.vertices).ann_points
        n_pts := (compaction store_single.vertices).count }
      (compaction store_single.vertices).vertices_refactor (0, 0, 0) =
        some (List.replicate 200 0) ∧
    min compute_normals_K ((compaction store_single.vertices).count) = 1 ∧
    fit_padded store_single.vertices [0] 1 = none ∧
    compute_vertex_normal_from_pointcloud Rat.sqrt (search_first ℚ) fit_padded store_single 0
      { pa := (compaction store_single.vertices).ann_points
        n_pts := (compaction store_single.vertices).count }
      (compaction store_single.vertices).vertices_refactor = some store_single_after := by
  refine ⟨rfl, rfl, rfl, ?_, ?_, ?_, rfl, rfl, ?_⟩
  · with_unfolding_all rfl
  · with_unfolding_all rfl
  · with_unfolding_all rfl
  · with_unfolding_all rfl

/-! ## Values of the normalisation used in the examples -/

theorem normalize_up : normalize_vector Real.sqrt { a := 0, b := 0, c := 1, d := 0 } =
    { a := 0, b := 0, c := 1, d := 0 } :=
  normalize_unit_plane _ (by norm_num)

theorem normalize_down : normalize_vector Real.sqrt { a := 0, b := 0, c := -1, d := 0 } =
    { a := 0, b := 0, c := -1, d := 0 } :=
  normalize_unit_plane _ (by norm_num)

theorem normalize_side : normalize_vector Real.sqrt { a := 1, b := 0, c := 0, d := 0 } =
    { a := 1, b := 0, c := 0, d := 0 } :=
  normalize_unit_plane _ (by norm_num)

theorem normalize_two_up : normalize_vector Real.sqrt { a := 0, b := 0, c := 2, d := 0 } =
    { a := 0, b := 0, c := 1, d := 0 } := by
  have h : Real.sqrt ((0 : ℝ) * 0 + 0 * 0 + 2 * 2) = 2 := by
    rw [show (0 : ℝ) * 0 + 0 * 0 + 2 * 2 = 2 * 2 by norm_num]
    exact Real.sqrt_mul_self (by norm_num)
  simp only [normalize_vector, h]
  norm_num

theorem normalize_zero : normalize_vector Real.sqrt { a := 0, b := 0, c := 0, d := 0 } =
    { a := 0, b := 0, c := 0, d := 0 } := by
  simp [normalize_vector]

theorem cloud_views_uncalibrated :
    all_uncalibrated (cloud_views ℝ).shots [{ primary := 0, secondary := 0 }] := by
  intro id hid
  rw [List.mem_singleton] at hid
  subst hid
  exact ⟨shot_off ℝ, rfl, rfl⟩

/-! ## The claims that the release of the plane breaks -/

/-- C2 at the failing input `cloud_views`: the first vertex of a cloud of 200
reconstructed vertices, fitted plane `2 z = 0`, incidence list naming an
uncalibrated shot, then a calibrated shot with `T = (0, 0, 1)`, then a
calibrated shot with `T = (0, 0, -1)`.  The call has no defined result,
because the orientation test at the first calibrated shot reads the plane
after `FREE(plane)`.  On the plane as it was before the release the loop
gives the sign the claim states (`spec_sign = -1`, normal `(0, 0, -1)`), and
with no calibrated shot in the list the call writes the fitted direction
`(0, 0, 1)`. -/
theorem orientation_reads_released_plane :
    compute_vertex_normal_from_pointcloud Real.sqrt (search_cloud ℝ)
        (fit_const { a := 0, b := 0, c := 2, d := 0 }) (cloud_views ℝ) 0
        { pa := (compaction (cloud_views ℝ).vertices).ann_points
          n_pts := (compaction (cloud_views ℝ).vertices).count }
        (compaction (cloud_views ℝ).vertices).vertices_refactor = none ∧
    orient_loop (cloud_views ℝ).shots (some { a := 0, b := 0, c := 1, d := 0 })
        (with_normal (cloud_origin ℝ) 0 0 1)
        [{ primary := 0, secondary := 0 }, { primary := 1, secondary := 0 },
          { primary := 2, secondary := 0 }] =
      some (with_normal (cloud_origin ℝ) 0 0 (-1)) ∧
    spec_sign ({ a := 0, b := 0, c := 1, d := 0 } : Plane ℝ) (0, 0, 1) = -1 ∧
    compute_vertex_normal_from_pointcloud Real.sqrt (search_cloud ℝ)
        (fit_const { a := 0, b := 0, c := 2, d := 0 }) (cloud_unobserved ℝ) 0
        { pa := (compaction (cloud_unobserved ℝ).vertices).ann_points
          n_pts := (compaction (cloud_unobserved ℝ).vertices).count }
        (compaction (cloud_unobserved ℝ).vertices).vertices_refactor =
      some (with_vertex (cloud_unobserved ℝ) 0 (with_normal (cloud_origin ℝ) 0 0 1)) := by
  refine ⟨?_, ?_, ?_, ?_⟩
  · exact compute_observed Real.sqrt (search_cloud ℝ) _ (cloud_views ℝ) 0 _ _ (cloud_origin ℝ)
      (List.range 200) { a := 0, b := 0, c := 2, d := 0 }
      { shot_point_ids := [{ primary := 0, secondary := 0 }, { primary := 1, secondary := 0 },
          { primary := 2, secondary := 0 }] }
      [{ primary := 0, secondary := 0 }] [{ primary := 2, secondary := 0 }]
      { primary := 1, secondary := 0 } (shot_above ℝ)
      (cloud_vertex_zero _ _) (cloud_nearest_origin _ _ _ _ rfl) rfl
      (cloud_incidence _ _ 0 (by norm_num)) rfl cloud_views_uncalibrated rfl rfl
  · have key := orient_loop_intact (cloud_views ℝ).shots { a := 0, b := 0, c := 1, d := 0 }
      (cloud_origin ℝ) [{ primary := 0, secondary := 0 }] [{ primary := 2, secondary := 0 }]
      { primary := 1, secondary := 0 } (shot_above ℝ) cloud_views_uncalibrated rfl rfl
    simp only [List.singleton_append] at key
    rw [key]
    norm_num [spec_sign, dot_3, shot_above]
  · norm_num [spec_sign, dot_3]
  · have key := compute_unobserved Real.sqrt (search_cloud ℝ)
      (fit_const { a := 0, b := 0, c := 2, d := 0 }) (cloud_unobserved ℝ) 0
      { pa := (compaction (cloud_unobserved ℝ).vertices).ann_points
        n_pts := (compaction (cloud_unobserved ℝ).vertices).count }
      (compaction (cloud_unobserved ℝ).vertices).vertices_refactor
      (cloud_origin ℝ) (List.range 200) { a := 0, b := 0, c := 2, d := 0 }
      { shot_point_ids := [{ primary := 0, secondary := 0 }] }
      (cloud_vertex_zero _ _) (cloud_nearest_origin _ _ _ _ rfl) rfl
      (cloud_incidence _ _ 0 (by norm_num)) cloud_unobserved_uncalibrated
    rw [normalize_two_up] at key
    exact key

/-- C3 at the failing input `cloud_scenario_A`: 200 reconstructed vertices on
the plane `z = 0`, one calibrated shot with `T = (0, 0, 1)`, the plane fitted
as `(0, 0, 1, 0)` or as `(0, 0, -1, 0)`.  The call has no defined result,
because the orientation test reads the plane after `FREE(plane)`; on the plane
as it was before the release the test leaves `(0, 0, -1)` both times, the
direction away from `T`, where the claim has `(0, 0, 1)`. -/
theorem scenario_A_reads_released_plane :
    compute_vertex_normal_from_pointcloud Real.sqrt (search_cloud ℝ)
        (fit_const { a := 0, b := 0, c := 1, d := 0 }) (cloud_scenario_A ℝ) 0
        { pa := (compaction (cloud_scenario_A ℝ).vertices).ann_points
          n_pts := (compaction (cloud_scenario_A ℝ).vertices).count }
        (compaction (cloud_scenario_A ℝ).vertices).vertices_refactor = none ∧
    compute_vertex_normal_from_pointcloud Real.sqrt (search_cloud ℝ)
        (fit_const { a := 0, b := 0, c := -1, d := 0 }) (cloud_scenario_A ℝ) 0
        { pa := (compaction (cloud_scenario_A ℝ).vertices).ann_points
          n_pts := (compaction (cloud_scenario_A ℝ).vertices).count }
        (compaction (cloud_scenario_A ℝ).vertices).vertices_refactor = none ∧
    orient_loop (cloud_scenario_A ℝ).shots (some { a := 0, b := 0, c := 1, d := 0 })
        (with_normal (cloud_origin ℝ) 0 0 1) [{ primary := 0, secondary := 0 }] =
      some (with_normal (cloud_origin ℝ) 0 0 (-1)) ∧
    orient_loop (cloud_scenario_A ℝ).shots (some { a := 0, b := 0, c := -1, d := 0 })
        (with_normal (cloud_origin ℝ) 0 0 (-1)) [{ primary := 0, secondary := 0 }] =
      some (with_normal (cloud_origin ℝ) 0 0 (-1)) := by
  have hnone : all_uncalibrated (cloud_scenario_A ℝ).shots [] :=
    fun _ h => absurd h (List.not_mem_nil _)
  refine ⟨?_, ?_, ?_, ?_⟩
  · exact compute_observed Real.sqrt (search_cloud ℝ) _ (cloud_scenario_A ℝ) 0 _ _
      (cloud_origin ℝ) (List.range 200) { a := 0, b := 0, c := 1, d := 0 }
      { shot_point_ids := [{ primary := 0, secondary := 0 }] } [] []
      { primary := 0, secondary := 0 } (shot_above ℝ)
      (cloud_vertex_zero _ _) (cloud_nearest_origin _ _ _ _ rfl) rfl
      (cloud_incidence _ _ 0 (by norm_num)) rfl hnone rfl rfl
  · exact compute_observed Real.sqrt (search_cloud ℝ) _ (cloud_scenario_A ℝ) 0 _ _
      (cloud_origin ℝ) (List.range 200) { a := 0, b := 0, c := -1, d := 0 }
      { shot_point_ids := [{ primary := 0, secondary := 0 }] } [] []
      { primary := 0, secondary := 0 } (shot_above ℝ)
      (cloud_vertex_zero _ _) (cloud_nearest_origin _ _ _ _ rfl) rfl
      (cloud_incidence _ _ 0 (by norm_num)) rfl hnone rfl rfl
  · have key := orient_loop_intact (cloud_scenario_A ℝ).shots { a := 0, b := 0, c := 1, d := 0 }
      (cloud_origin ℝ) [] [] { primary := 0, secondary := 0 } (shot_above ℝ) hnone rfl rfl
    simp only [List.nil_append] at key
    rw [key]
    norm_num [spec_sign, dot_3, shot_above]
  · have key := orient_loop_intact (cloud_scenario_A ℝ).shots
      { a := 0, b := 0, c := -1, d := 0 }
      (cloud_origin ℝ) [] [] { primary := 0, secondary := 0 } (shot_above ℝ) hnone rfl rfl
    simp only [List.nil_append] at key
    rw [key]
    norm_num [spec_sign, dot_3, shot_above]

/-! ## The claims that hold for a narrower class of fitters -/

/-- C4, amended: over the reals, the normal a call writes for a vertex whose
fitted plane has a non-zero normal vector `(a, b, c)` has
`nx^2 + ny^2 + nz^2 = 1`; the orientation loop keeps that length, flipped or
not; and after a batch run with a fitter that returns only such planes every
vertex either has the normal it had before or a normal of length `1`. -/
theorem written_normal_is_unit (annkSearch : Search ℝ) (fit : Fitter ℝ) :
    (∀ (s s' : Store ℝ) (vertex_id : Nat) (tree : ANNkd_tree ℝ) (reindex : Nat → Option Nat)
      (vertex : Vertex ℝ) (ids : List Nat) (fitted : Plane ℝ),
      s.vertices[vertex_id]? = some vertex →
      nearest_ids annkSearch tree reindex (vertex.x, vertex.y, vertex.z) = some ids →
      fit s.vertices ids compute_normals_K = some fitted →
      (fitted.a ≠ 0 ∨ fitted.b ≠ 0 ∨ fitted.c ≠ 0) →
      compute_vertex_normal_from_pointcloud Real.sqrt annkSearch fit s vertex_id tree reindex =
        some s' →
      ∃ w, s'.vertices[vertex_id]? = some w ∧ w.nx ^ 2 + w.ny ^ 2 + w.nz ^ 2 = 1) ∧
    (∀ (shots : List (Shot ℝ)) (plane : Option (Plane ℝ)) (v w : Vertex ℝ)
      (ids : List Double_Index), v.nx ^ 2 + v.ny ^ 2 + v.nz ^ 2 = 1 →
      orient_loop shots plane v ids = some w → w.nx ^ 2 + w.ny ^ 2 + w.nz ^ 2 = 1) ∧
    ((∀ (vs : List (Vertex ℝ)) (ids : List Nat) (n : Nat) (p : Plane ℝ),
        fit vs ids n = some p → p.a ≠ 0 ∨ p.b ≠ 0 ∨ p.c ≠ 0) →
      ∀ (s s' : Store ℝ),
        tool_triangulate_compute_normals Real.sqrt annkSearch fit s = some s' →
        ∀ (i : Nat) (v : Vertex ℝ), s.vertices[i]? = some v →
          ∃ w, s'.vertices[i]? = some w ∧
            ((w.nx = v.nx ∧ w.ny = v.ny ∧ w.nz = v.nz) ∨
              w.nx ^ 2 + w.ny ^ 2 + w.nz ^ 2 = 1)) := by
  refine ⟨?_, ?_, ?_⟩
  · intro s s' vertex_id tree reindex vertex ids fitted hv hn hf hnd h
    simp only [compute_vertex_normal_from_pointcloud, hv, hn, hf] at h
    split at h
    · exact absurd h (by simp)
    · split at h
      · exact absurd h (by simp)
      · rename_i w hw
        simp only [Option.some.injEq] at h
        subst h
        exact ⟨w, by simp [List.getElem?_set_self (List.getElem?_eq_some.1 hv).1],
          oriented_unit _ fitted vertex w _ hnd _ hw⟩
  · intro shots plane v w ids hv h
    rcases (orient_loop_geometry _ _ _ _ _ h).2 with ⟨e₁, e₂, e₃⟩ | ⟨e₁, e₂, e₃⟩
    · rw [e₁, e₂, e₃]
      exact hv
    · rw [e₁, e₂, e₃]
      linarith [hv]
  · intro hplane s s' h
    exact (normals_loop_kept_or_unit annkSearch fit hplane _ _ _ s s' h).2

/-- The unit-length theorem at the first vertex of `cloud_unobserved` with the
fitted plane `2 z = 0`: the call writes `(0, 0, 1)`, of length `1`. -/
theorem written_normal_is_unit_witness :
    ((0 : ℝ) ≠ 0 ∨ (0 : ℝ) ≠ 0 ∨ (2 : ℝ) ≠ 0) ∧
    compute_vertex_normal_from_pointcloud Real.sqrt (search_cloud ℝ)
        (fit_const { a := 0, b := 0, c := 2, d := 0 }) (cloud_unobserved ℝ) 0
        { pa := (compaction (cloud_unobserved ℝ).vertices).ann_points
          n_pts := (compaction (cloud_unobserved ℝ).vertices).count }
        (compaction (cloud_unobserved ℝ).vertices).vertices_refactor =
      some (with_vertex (cloud_unobserved ℝ) 0 (with_normal (cloud_origin ℝ)
        (normalize_vector Real.sqrt { a := 0, b := 0, c := 2, d := 0 }).a
        (normalize_vector Real.sqrt { a := 0, b := 0, c := 2, d := 0 }).b
        (normalize_vector Real.sqrt { a := 0, b := 0, c := 2, d := 0 }).c)) ∧
    ∃ w, (with_vertex (cloud_unobserved ℝ) 0 (with_normal (cloud_origin ℝ)
        (normalize_vector Real.sqrt { a := 0, b := 0, c := 2, d := 0 }).a
        (normalize_vector Real.sqrt { a := 0, b := 0, c := 2, d := 0 }).b
        (normalize_vector Real.sqrt { a := 0, b := 0, c := 2, d := 0 }).c)).vertices[0]? =
        some w ∧ w.nx ^ 2 + w.ny ^ 2 + w.nz ^ 2 = 1 :=
  have hnd : (0 : ℝ) ≠ 0 ∨ (0 : ℝ) ≠ 0 ∨ (2 : ℝ) ≠ 0 := Or.inr (Or.inr two_ne_zero)
  have hrun := compute_unobserved Real.sqrt (search_cloud ℝ)
    (fit_const { a := 0, b := 0, c := 2, d := 0 }) (cloud_unobserved ℝ) 0
    { pa := (compaction (cloud_unobserved ℝ).vertices).ann_points
      n_pts := (compaction (cloud_unobserved ℝ).vertices).count }
    (compaction (cloud_unobserved ℝ).vertices).vertices_refactor
    (cloud_origin ℝ) (List.range 200) { a := 0, b := 0, c := 2, d := 0 }
    { shot_point_ids := [{ primary := 0, secondary := 0 }] }
    (cloud_vertex_zero _ _) (cloud_nearest_origin _ _ _ _ rfl) rfl
    (cloud_incidence _ _ 0 (by norm_num)) cloud_unobserved_uncalibrated
  ⟨hnd, hrun,
    (written_normal_is_unit (search_cloud ℝ) (fit_const { a := 0, b := 0, c := 2, d := 0 })).1
      (cloud_unobserved ℝ) _ 0 _ _ (cloud_origin ℝ) (List.range 200)
      { a := 0, b := 0, c := 2, d := 0 } (cloud_vertex_zero _ _)
      (cloud_nearest_origin _ _ _ _ rfl) rfl hnd hrun⟩

set_option maxRecDepth 100000 in
/-- C4 as stated fails for a returned plane with `(a, b, c) = (0, 0, 0)`: on
the first vertex of `cloud_unobserved` with the fitted plane `(0, 0, 0, 0)` the
call writes the normal `(0, 0, 0)` over `(3, 4, 5)`, and its length is not
`1`. -/
theorem zero_plane_normal_is_not_unit :
    compute_vertex_normal_from_pointcloud Real.sqrt (search_cloud ℝ)
        (fit_const { a := 0, b := 0, c := 0, d := 0 }) (cloud_unobserved ℝ) 0
        { pa := (compaction (cloud_unobserved ℝ).vertices).ann_points
          n_pts := (compaction (cloud_unobserved ℝ).vertices).count }
        (compaction (cloud_unobserved ℝ).vertices).vertices_refactor =
      some (with_vertex (cloud_unobserved ℝ) 0 (with_normal (cloud_origin ℝ) 0 0 0)) ∧
    (with_vertex (cloud_unobserved ℝ) 0 (with_normal (cloud_origin ℝ) 0 0 0)).vertices[0]? =
      some (with_normal (cloud_origin ℝ) 0 0 0) ∧
    ¬ ((with_normal (cloud_origin ℝ) 0 0 0).nx ^ 2 + (with_normal (cloud_origin ℝ) 0 0 0).ny ^ 2 +
      (with_normal (cloud_origin ℝ) 0 0 0).nz ^ 2 = 1) := by
  refine ⟨?_, rfl, ?_⟩
  · have key := compute_unobserved Real.sqrt (search_cloud ℝ)
      (fit_const { a := 0, b := 0, c := 0, d := 0 }) (cloud_unobserved ℝ) 0
      { pa := (compaction (cloud_unobserved ℝ).vertices).ann_points
        n_pts := (compaction (cloud_unobserved ℝ).vertices).count }
      (compaction (cloud_unobserved ℝ).vertices).vertices_refactor
      (cloud_origin ℝ) (List.range 200) { a := 0, b := 0, c := 0, d := 0 }
      { shot_point_ids := [{ primary := 0, secondary := 0 }] }
      (cloud_vertex_zero _ _) (cloud_nearest_origin _ _ _ _ rfl) rfl
      (cloud_incidence _ _ 0 (by norm_num)) cloud_unobserved_uncalibrated
    rw [normalize_zero] at key
    exact key
  · norm_num [with_normal]

theorem with_vertex_getElem? {α : Type} (s : Store α) (i : Nat) (w : Vertex α)
    (h : i < s.vertices.length) : (with_vertex s i w).vertices[i]? = some w := by
  simp [with_vertex, List.getElem?_set_self h]

theorem normals_step_of_fit {α : Type} [LinearOrderedField α] (sqrt : α → α)
    (annkSearch : Search α) (fit : Fitter α) (tree : ANNkd_tree α)
    (reindex : Nat → Option Nat) (s : Store α) (i : Nat) (v : Vertex α) (ids : List Nat)
    (fitted : Plane α) (incidence : Vertex_Incidence)
    (hv : s.vertices[i]? = some v) (hr : v.reconstructed = true)
    (hn : nearest_ids annkSearch tree reindex (v.x, v.y, v.z) = some ids)
    (hf : fit s.vertices ids compute_normals_K = some fitted)
    (hi : s.vertices_incidence[i]? = some incidence)
    (hall : all_uncalibrated s.shots incidence.shot_point_ids) :
    normals_step sqrt annkSearch fit tree reindex s i =
      some (with_vertex s i (with_normal v (normalize_vector sqrt fitted).a
        (normalize_vector sqrt fitted).b (normalize_vector sqrt fitted).c)) := by
  rw [normals_step_reconstructed sqrt annkSearch fit tree reindex s i v hv hr]
  exact compute_unobserved sqrt annkSearch fit s i tree reindex v ids fitted incidence hv hn hf
    hi hall

theorem fit_by_normal_eq {α : Type} [LinearOrderedField α] (vs : List (Vertex α))
    (ids : List Nat) (n : Nat) (v : Vertex α) (h : vs[0]? = some v) :
    fit_by_normal α vs ids n =
      if v.nz = 5 then some { a := 0, b := 0, c := 1, d := 0 }
      else some { a := 1, b := 0, c := 0, d := 0 } := by
  simp only [fit_by_normal, h]

theorem cloud_unobserved_zero {α : Type} [LinearOrderedField α] :
    (cloud_unobserved α).vertices[0]? = some (cloud_origin α) :=
  cloud_vertex_zero _ _

theorem cloud_unobserved_length {α : Type} [LinearOrderedField α] :
    (cloud_unobserved α).vertices.length = 200 :=
  cloud_length _ _

theorem cloud_unobserved_nearest_origin {α : Type} [LinearOrderedField α]
    (tree : ANNkd_tree α) (q : α × α × α) (h : q.1 = 0) :
    nearest_ids (search_cloud α) tree
      (compaction (cloud_unobserved α).vertices).vertices_refactor q = some (List.range 200) :=
  cloud_nearest_origin _ _ tree q h

/-- A step of the second loop of a batch over `cloud_unobserved`, on a store
that still has the shots and incidence records of the cloud, for a vertex
whose fit succeeds. -/
theorem cloud_step_of_fit (fit : Fitter ℝ) (st : Store ℝ)
    (hsh : st.shots = (cloud_unobserved ℝ).shots)
    (hin : st.vertices_incidence = (cloud_unobserved ℝ).vertices_incidence)
    (i : Nat) (hi : i < 200) (v : Vertex ℝ) (ids : List Nat) (fitted : Plane ℝ)
    (hv : st.vertices[i]? = some v) (hr : v.reconstructed = true)
    (hn : nearest_ids (search_cloud ℝ)
      { pa := (compaction (cloud_unobserved ℝ).vertices).ann_points
        n_pts := (compaction (cloud_unobserved ℝ).vertices).count }
      (compaction (cloud_unobserved ℝ).vertices).vertices_refactor (v.x, v.y, v.z) = some ids)
    (hf : fit st.vertices ids compute_normals_K = some fitted) :
    normals_step Real.sqrt (search_cloud ℝ) fit
      { pa := (compaction (cloud_unobserved ℝ).vertices).ann_points
        n_pts := (compaction (cloud_unobserved ℝ).vertices).count }
      (compaction (cloud_unobserved ℝ).vertices).vertices_refactor st i =
      some (with_vertex st i (with_normal v (normalize_vector Real.sqrt fitted).a
        (normalize_vector Real.sqrt fitted).b (normalize_vector Real.sqrt fitted).c)) :=
  normals_step_of_fit Real.sqrt (search_cloud ℝ) fit _ _ st i v ids fitted
    { shot_point_ids := [{ primary := 0, secondary := 0 }] } hv hr hn hf
    (by rw [hin]; exact cloud_incidence _ _ i hi)
    (by rw [hsh]; exact cloud_unobserved_uncalibrated)

theorem cloud_run_first_steps (fit : Fitter ℝ) (s' : Store ℝ)
    (h : tool_triangulate_compute_normals Real.sqrt (search_cloud ℝ) fit (cloud_unobserved ℝ) =
      some s') :
    ∃ t₀ t₁, normals_step Real.sqrt (search_cloud ℝ) fit
        { pa := (compaction (cloud_unobserved ℝ).vertices).ann_points
          n_pts := (compaction (cloud_unobserved ℝ).vertices).count }
        (compaction (cloud_unobserved ℝ).vertices).vertices_refactor (cloud_unobserved ℝ) 0 =
        some t₀ ∧
      normals_step Real.sqrt (search_cloud ℝ) fit
        { pa := (compaction (cloud_unobserved ℝ).vertices).ann_points
          n_pts := (compaction (cloud_unobserved ℝ).vertices).count }
        (compaction (cloud_unobserved ℝ).vertices).vertices_refactor t₀ 1 = some t₁ ∧
      s'.vertices[0]? = t₀.vertices[0]? ∧ s'.vertices[1]? = t₁.vertices[1]? :=
  batch_first_steps Real.sqrt (search_cloud ℝ) fit (cloud_unobserved ℝ) s' 198
    cloud_unobserved_length h

/-- C9, amended: with a deterministic search and a deterministic fitter that
reads positions and flags only, a batch run over the result of a batch run
that ended gives that result again; a vertex whose fit fails keeps its normal
both times. -/
theorem compute_normals_idempotent {α : Type} [LinearOrderedField α] (sqrt : α → α)
    (annkSearch : Search α) (fit : Fitter α) (hfit : reads_geometry_only fit) (s s' : Store α)
    (h : tool_triangulate_compute_normals sqrt annkSearch fit s = some s') :
    tool_triangulate_compute_normals sqrt annkSearch fit s' = some s' := by
  rw [batch_eq_process_all sqrt annkSearch fit hfit s] at h
  cases hp : process_all (processed sqrt annkSearch fit s
      { pa := (compaction s.vertices).ann_points, n_pts := (compaction s.vertices).count }
      (compaction s.vertices).vertices_refactor) 0 s.vertices with
  | none =>
    rw [hp] at h
    exact absurd h (by simp)
  | some ws =>
    rw [hp] at h
    simp only [Option.map_some', Option.some.injEq] at h
    subst h
    have hge : ws.map geometry = s.vertices.map geometry :=
      process_all_geometry _
        (fun j v w h => (same_geometry_iff v w).1 (processed_geometry _ _ _ _ _ _ _ _ _ h))
        _ _ _ hp
    have hcongr : ∀ (tree : ANNkd_tree α) (reindex : Nat → Option Nat),
        processed sqrt annkSearch fit { s with vertices := ws } tree reindex =
          processed sqrt annkSearch fit s tree reindex := by
      intro tree reindex
      funext i v
      exact processed_congr sqrt annkSearch fit hfit s { s with vertices := ws } rfl rfl hge
        tree reindex i v
    rw [batch_eq_process_all sqrt annkSearch fit hfit { s with vertices := ws }]
    simp only []
    rw [compaction_congr ws s.vertices hge, hcongr,
      process_all_fixed _ _ (fun j v w h => processed_fixed _ _ _ _ _ _ _ _ _ h) _ _ _ hp]
    rfl

/-- The idempotence theorem on `cloud_unobserved` with `fit_far`: the first
run ends (the origin's fit fails, every other vertex gets a normal) and the
second run gives the same store. -/
theorem compute_normals_idempotent_witness :
    reads_geometry_only (fit_far ℝ) ∧
    ∃ s', tool_triangulate_compute_normals Real.sqrt (search_cloud ℝ) (fit_far ℝ)
        (cloud_unobserved ℝ) = some s' ∧
      tool_triangulate_compute_normals Real.sqrt (search_cloud ℝ) (fit_far ℝ) s' = some s' :=
  ⟨fit_far_reads_geometry_only,
    (batch_defined Real.sqrt (search_cloud ℝ) (fit_far ℝ) (cloud_unobserved ℝ)
      cloud_unobserved_reads_defined).imp
      (fun s' h => ⟨h, compute_normals_idempotent Real.sqrt (search_cloud ℝ) (fit_far ℝ)
        fit_far_reads_geometry_only (cloud_unobserved ℝ) s' h⟩)⟩

/-- C9 as stated fails for a deterministic fitter that reads normals.  On
`cloud_unobserved` with `fit_by_normal` the first run leaves the origin with
the normal `(0, 0, 1)`, and a second run on the result leaves it with
`(1, 0, 0)`: running twice is not running once. -/
theorem second_run_changes_normal :
    (tool_triangulate_compute_normals Real.sqrt (search_cloud ℝ) (fit_by_normal ℝ)
      (cloud_unobserved ℝ)).bind (fun s => s.vertices[0]?) =
      some (with_normal (cloud_origin ℝ) 0 0 1) ∧
    ((tool_triangulate_compute_normals Real.sqrt (search_cloud ℝ) (fit_by_normal ℝ)
      (cloud_unobserved ℝ)).bind
        (tool_triangulate_compute_normals Real.sqrt (search_cloud ℝ) (fit_by_normal ℝ))).bind
      (fun s => s.vertices[0]?) = some (with_normal (cloud_origin ℝ) 1 0 0) ∧
    (tool_triangulate_compute_normals Real.sqrt (search_cloud ℝ) (fit_by_normal ℝ)
      (cloud_unobserved ℝ)).bind
        (tool_triangulate_compute_normals Real.sqrt (search_cloud ℝ) (fit_by_normal ℝ)) ≠
      tool_triangulate_compute_normals Real.sqrt (search_cloud ℝ) (fit_by_normal ℝ)
        (cloud_unobserved ℝ) := by
  obtain ⟨s₁, h₁⟩ := batch_defined Real.sqrt (search_cloud ℝ) (fit_by_normal ℝ)
    (cloud_unobserved ℝ) cloud_unobserved_reads_defined
  have hfr : Frame (cloud_unobserved ℝ) s₁ := normals_loop_frame _ _ _ _ _ _ _ _ h₁
  obtain ⟨s₂, h₂⟩ := batch_defined Real.sqrt (search_cloud ℝ) (fit_by_normal ℝ) s₁
    (reads_defined_of_Frame _ _ _ cloud_unobserved_reads_defined hfr)
  have hfirst : s₁.vertices[0]? = some (with_normal (cloud_origin ℝ) 0 0 1) := by
    obtain ⟨t₀, t₁, ht₀, _, hz, _⟩ := cloud_run_first_steps _ s₁ h₁
    have hf : fit_by_normal ℝ (cloud_unobserved ℝ).vertices (List.range 200)
        compute_normals_K = some { a := 0, b := 0, c := 1, d := 0 } := by
      rw [fit_by_normal_eq _ _ _ (cloud_origin ℝ) cloud_unobserved_zero]
      exact if_pos rfl
    rw [cloud_step_of_fit (fit_by_normal ℝ) (cloud_unobserved ℝ) rfl rfl 0 (by norm_num)
      (cloud_origin ℝ) (List.range 200) { a := 0, b := 0, c := 1, d := 0 }
      cloud_unobserved_zero rfl (cloud_unobserved_nearest_origin _ _ rfl) hf,
      normalize_up] at ht₀
    rw [hz, ← Option.some.inj ht₀]
    exact with_vertex_getElem? _ _ _ (by rw [cloud_unobserved_length]; norm_num)
  have hlen : s₁.vertices.length = 198 + 2 := by
    rw [hfr.2.2.1, cloud_unobserved_length]
  have hsecond : s₂.vertices[0]? = some (with_normal (cloud_origin ℝ) 1 0 0) := by
    obtain ⟨t₀, t₁, ht₀, _, hz, _⟩ := batch_first_steps Real.sqrt (search_cloud ℝ)
      (fit_by_normal ℝ) s₁ s₂ 198 hlen h₂
    have hf : fit_by_normal ℝ s₁.vertices (List.range 200) compute_normals_K =
        some { a := 1, b := 0, c := 0, d := 0 } := by
      rw [fit_by_normal_eq _ _ _ _ hfirst]
      exact if_neg (by norm_num [with_normal])
    rw [compaction_congr s₁.vertices (cloud_unobserved ℝ).vertices (Frame_geometry hfr),
      cloud_step_of_fit (fit_by_normal ℝ) s₁ hfr.1 hfr.2.1 0 (by norm_num)
      (with_normal (cloud_origin ℝ) 0 0 1) (List.range 200) { a := 1, b := 0, c := 0, d := 0 }
      hfirst rfl (cloud_unobserved_nearest_origin _ _ rfl) hf, normalize_side] at ht₀
    rw [hz, ← Option.some.inj ht₀]
    exact with_vertex_getElem? _ _ _ (by rw [hlen]; norm_num)
  have hne : with_normal (cloud_origin ℝ) 1 0 0 ≠ with_normal (cloud_origin ℝ) 0 0 1 := by
    intro h
    have hx := congrArg Vertex.nx h
    simp only [with_normal] at hx
    norm_num at hx
  refine ⟨?_, ?_, ?_⟩
  · rw [h₁, Option.some_bind]
    exact hfirst
  · rw [h₁, Option.some_bind, h₂, Option.some_bind]
    exact hsecond
  · rw [h₁, Option.some_bind, h₂]
    intro h
    have e : s₂ = s₁ := Option.some.inj h
    rw [e, hfirst] at hsecond
    exact hne (Option.some.inj hsecond).symm

end Insight3d
